import Mathlib

/-!
Verification of the GermanCostCo scenario runner (src/scenario_runner.py).

The development shallowly embeds the algorithmic core of the repository:
the membership break-even formula, the decision-matrix probability
weighting, the replication summarizer (quantiles, CVaR, loss probability),
and the constrained multi-year rollout optimizer of build_city_portfolio.
Real-valued float arithmetic is modelled over ℚ where the code is plain
arithmetic, and over ℝ where the code uses exp/log. Python integer
bitmasks over city/state bits are modelled as finite sets of the
corresponding indices (union, intersection, popcount become ∪, ∩, card),
preserving the source semantics exactly.
-/

namespace GermanCostCo

/-- np.clip(x, lo, hi): clamp x into the closed interval [lo, hi]. -/
def clip {α : Type} [LinearOrder α] (lo hi x : α) : α := max lo (min x hi)

/-! ## Membership break-even (scenario_runner.py lines 86-99)

calculate_membership_break_even returns yearly and monthly break-even
spend; the bulk discount is floored at 0.001 to guard division. The
formula is generic over any linear ordered field so it can be used both
in the rational development and inside the real-valued evaluator. -/

/-- Effective membership fee: max(0.0, fee - subsidy), line 141. -/
def effectiveFee {α : Type} [LinearOrderedField α] (fee subsidy : α) : α :=
  max 0 (fee - subsidy)

/-- BreakEven_YearlySpend = Membership_Fee * (1 + Inflation) / max(Bulk_Discount, 0.001). -/
def break_even_yearly_spend {α : Type} [LinearOrderedField α]
    (membership_fee bulk_discount inflation_rate : α) : α :=
  membership_fee * (1 + inflation_rate) / max bulk_discount (1/1000)

/-- Monthly break-even spend: the yearly value divided by 12 (line 98). -/
def break_even_monthly_spend {α : Type} [LinearOrderedField α]
    (membership_fee bulk_discount inflation_rate : α) : α :=
  break_even_yearly_spend membership_fee bulk_discount inflation_rate / 12

/-! ## Decision-matrix probability weighting (lines 314-337)

build_decision_matrix groups the summary table by strategy. For each
group it maps each row scenario through scenario_probs.get(s, 0.0),
sums the mapped probabilities (with `or 1.0` replacing a zero sum),
divides each weight by that denominator and forms weighted sums of the
summary statistics. One group (one strategy) is modelled here; a row is
the per-scenario summary record carrying the statistics that the builder
weights. -/

/-- One row of the summary table as consumed by build_decision_matrix. -/
structure SummaryRow where
  scenario : String
  mean_contribution : ℚ
  std_contribution : ℚ
  prob_loss : ℚ
  cvar5_contribution : ℚ
  prob_meet_hurdle : ℚ
deriving DecidableEq

/-- scenario_probs.get(s, 0.0): configured probability of a scenario name,
with default 0 when the name is absent from the map (line 320). -/
def scenarioProb (probs : List (String × ℚ)) (s : String) : ℚ :=
  match probs.find? (fun p => p.1 == s) with
  | some p => p.2
  | none => 0

/-- Hypothetical lookup following the specification text instead of the
source: default weight 1 for a scenario name absent from the map. Used
only to compare the spec sentence against the code. -/
def scenarioProbSpecDefaultOne (probs : List (String × ℚ)) (s : String) : ℚ :=
  match probs.find? (fun p => p.1 == s) with
  | some p => p.2
  | none => 1

/-- Sum of the mapped scenario probabilities of a strategy group (line 321). -/
def totalProb (probs : List (String × ℚ)) (group : List SummaryRow) : ℚ :=
  (group.map (fun r => scenarioProb probs r.scenario)).sum

/-- Python `float(total) or 1.0`: a zero probability sum falls back to 1. -/
def weightDenom (probs : List (String × ℚ)) (group : List SummaryRow) : ℚ :=
  if totalProb probs group = 0 then 1 else totalProb probs group

/-- Probability-weighted sum of one summary statistic over a strategy
group, with per-row weight w = scenarioProb / weightDenom (lines 322-328). -/
def weightedStat (probs : List (String × ℚ)) (group : List SummaryRow)
    (stat : SummaryRow → ℚ) : ℚ :=
  (group.map (fun r => stat r * (scenarioProb probs r.scenario / weightDenom probs group))).sum

/-- The same weighted sum computed with the spec-text default weight 1
for unmapped scenarios (normalizing denominator built the same way). -/
def weightedStatSpecDefaultOne (probs : List (String × ℚ)) (group : List SummaryRow)
    (stat : SummaryRow → ℚ) : ℚ :=
  let tot := (group.map (fun r => scenarioProbSpecDefaultOne probs r.scenario)).sum
  let denom := if tot = 0 then 1 else tot
  (group.map (fun r => stat r * (scenarioProbSpecDefaultOne probs r.scenario / denom))).sum

/-! ## Replication summarizer (lines 280-311)

summarize_replication_results groups the replication table by
(scenario, strategy) and reduces the total contribution column of the
group to quantiles, CVaR at the 5 percent tail, loss probability and
hurdle probability. The pandas quantile uses linear interpolation on the
sorted values at virtual position q*(n-1). The sample standard deviation
(ddof=1) is not representable over ℚ and is not touched by any claim, so
it is omitted from the group summary. -/

/-- Sorted copy of the values, ascending. -/
def qsort (l : List ℚ) : List ℚ := l.insertionSort (· ≤ ·)

/-- Pandas Series.quantile with linear interpolation: virtual position
pos = q*(n-1), result = s[i] + (pos-i)*(s[i+1] - s[i]) with i = floor pos. -/
def quantile (l : List ℚ) (q : ℚ) : ℚ :=
  let s := qsort l
  let pos : ℚ := q * ((s.length : ℚ) - 1)
  let i : ℕ := (Int.toNat ⌊pos⌋)
  let lo := s.getD i 0
  let hi := s.getD (min (i + 1) (s.length - 1)) 0
  lo + (pos - (i : ℚ)) * (hi - lo)

/-- CVaR at the 5 percent tail: mean of the contributions at or below the
5th percentile, falling back to the 5th percentile itself when the tail
selection is empty (line 291). -/
def cvar5 (l : List ℚ) : ℚ :=
  let q05 := quantile l (1/20)
  let tail := l.filter (fun x => x ≤ q05)
  if tail.length = 0 then q05 else tail.sum / (tail.length : ℚ)

/-- Aggregate statistics of one (scenario, strategy) group. -/
structure GroupSummary where
  mean_contribution : ℚ
  p10_contribution : ℚ
  p50_contribution : ℚ
  p90_contribution : ℚ
  cvar5_contribution : ℚ
  prob_loss : ℚ
  prob_meet_hurdle : ℚ
deriving DecidableEq

/-- Summary of one group of replication contributions (lines 290-309). -/
def summarizeGroup (contrib : List ℚ) (hurdle : ℚ) : GroupSummary :=
  { mean_contribution := contrib.sum / (contrib.length : ℚ)
  , p10_contribution := quantile contrib (1/10)
  , p50_contribution := quantile contrib (1/2)
  , p90_contribution := quantile contrib (9/10)
  , cvar5_contribution := cvar5 contrib
  , prob_loss := ((contrib.filter (fun x => x < 0)).length : ℚ) / (contrib.length : ℚ)
  , prob_meet_hurdle := ((contrib.filter (fun x => hurdle ≤ x)).length : ℚ) / (contrib.length : ℚ) }

/-! ## Rollout optimizer (build_city_portfolio, lines 604-819)

The optimizer part of build_city_portfolio starts from the
city_recommendation_df table: one row per city carrying the capex
estimate, the city loss probability, the portfolio objective and the
federal state. Board signals (lines 604-614) classify rows; NO-GO rows
are excluded from the candidate set (line 648). Integer bitmasks over
candidate bits and state bits are modelled as Finsets of the candidate
positions and state identifiers; bin(x).count("1") becomes Finset.card. -/

/-- Board signal classification (lines 604-614). -/
inductive BoardSignal
  | GO
  | CONDITIONAL
  | NOGO
deriving DecidableEq

/-- One row of the recommendation table as seen by the optimizer. -/
structure CityRow where
  capex : ℚ
  lossProb : ℚ
  objective : ℚ
  state : ℕ
deriving DecidableEq, Inhabited

/-- GO if objective positive and loss probability at most 0.35; else
CONDITIONAL if objective above -2,000,000 and loss probability at most
0.55; else NO-GO. -/
def boardSignal (r : CityRow) : BoardSignal :=
  if 0 < r.objective ∧ r.lossProb ≤ 35/100 then .GO
  else if -2000000 < r.objective ∧ r.lossProb ≤ 55/100 then .CONDITIONAL
  else .NOGO

/-- Budget, risk and diversification constraints (lines 468-485). -/
structure PortfolioConfig where
  annual_capex_budget : List ℚ
  budget_reserve_ratio : ℚ
  max_new_cities_per_year : List ℕ
  annual_loss_risk_cap : List ℚ
  min_distinct_states_first3_years : ℕ
deriving DecidableEq

/-- planning_years = min of the three constraint list lengths (line 487). -/
def planningYears (cfg : PortfolioConfig) : ℕ :=
  min cfg.annual_capex_budget.length
    (min cfg.max_new_cities_per_year.length cfg.annual_loss_risk_cap.length)

/-- Candidate positions: indices of the rows whose board signal is not
NO-GO, in table order (line 648). -/
def candidateIdx (rows : List CityRow) : List ℕ :=
  (List.range rows.length).filter (fun i => decide (boardSignal (rows.getD i default) ≠ .NOGO))

/-- The GO/CONDITIONAL candidate rows, in table order. -/
def candidates (rows : List CityRow) : List CityRow :=
  (candidateIdx rows).map (fun i => rows.getD i default)

/-- capex_arr lookup. -/
def capexOf (cand : List CityRow) (i : ℕ) : ℚ := (cand.getD i default).capex

/-- loss_arr lookup. -/
def lossOf (cand : List CityRow) (i : ℕ) : ℚ := (cand.getD i default).lossProb

/-- objective_arr lookup. -/
def objectiveOf (cand : List CityRow) (i : ℕ) : ℚ := (cand.getD i default).objective

/-- state_mask_arr lookup: the state identifier of candidate i. -/
def stateOf (cand : List CityRow) (i : ℕ) : ℕ := (cand.getD i default).state

/-- Candidate launch bundle for one year (lines 678-713): member ids,
their identity set, the union of represented states, aggregate score,
capex sum and mean loss risk. -/
structure Bundle where
  ids : List ℕ
  mask : Finset ℕ
  stateMask : Finset ℕ
  score : ℚ
  capexSum : ℚ
  riskAvg : ℚ
deriving DecidableEq

instance : Inhabited Bundle := ⟨⟨[], ∅, ∅, 0, 0, 0⟩⟩

/-- Bundle assembled from a combination of candidate positions; the
empty combination yields the always-present empty bundle with score 0,
capex 0 and risk 0. -/
def mkBundle (cand : List CityRow) (combo : List ℕ) : Bundle :=
  { ids := combo
  , mask := combo.toFinset
  , stateMask := (combo.map (stateOf cand)).toFinset
  , score := (combo.map (objectiveOf cand)).sum
  , capexSum := (combo.map (capexOf cand)).sum
  , riskAvg := if combo.length = 0 then 0
               else (combo.map (lossOf cand)).sum / (combo.length : ℚ) }

/-- itertools.combinations(range(n), k) for k in range(1, kmax+1):
all duplicate-free increasing index lists of size 1..kmax. -/
def combosUpTo (n kmax : ℕ) : List (List ℕ) :=
  (List.range' 1 kmax).flatMap (fun k => List.sublistsLen k (List.range n))

/-- Feasible bundles of one year (lines 678-715): the empty bundle plus
every combination of size 1..min(max_new, n) whose capex sum is within
the usable budget and whose mean loss risk is within the risk cap,
sorted descending by raw aggregate score. -/
def yearlyBundles (cand : List CityRow) (maxNew : ℕ) (budget riskCap : ℚ) : List Bundle :=
  let base := [mkBundle cand []]
  let feasible := (combosUpTo cand.length (min maxNew cand.length)).filterMap (fun combo =>
    let b := mkBundle cand combo
    if budget < b.capexSum then none
    else if riskCap < b.riskAvg then none
    else some b)
  (base ++ feasible).insertionSort (fun a b => b.score ≤ a.score)

/-- Union of the states of the candidates not yet launched (lines 738-741). -/
def availableStates (cand : List CityRow) (nextLaunched : Finset ℕ) : Finset ℕ :=
  (((List.range cand.length).filter (fun rid => decide (rid ∉ nextLaunched))).map
    (stateOf cand)).toFinset

/-- sum(max_new_per_year[year:first3_years]): remaining launch capacity
inside the diversification window strictly after the given year. -/
def windowMaxNewSum (maxNew : List ℕ) (year first3 : ℕ) : ℕ :=
  ((maxNew.drop year).take (first3 - year)).sum

/-- One scan step of the selection loop (lines 727-751): a bundle is
skipped when it overlaps already launched cities, and inside the
diversification window additionally when the reachable distinct-state
count falls short of the requirement, or, in the final window year, when
the requirement is not already met by selecting it. -/
def bundleAdmissible (cand : List CityRow) (maxNew : List ℕ) (first3 required year : ℕ)
    (launched statesFirst3 : Finset ℕ) (b : Bundle) : Bool :=
  if b.mask ∩ launched ≠ ∅ then false
  else if year ≤ first3 then
    let nextLaunched := launched ∪ b.mask
    let nextStates := statesFirst3 ∪ b.stateMask
    let yearsLeft := first3 - year
    let unseen := ((availableStates cand nextLaunched) \ nextStates).card
    let maxPossible := nextStates.card +
      min unseen (if 0 < yearsLeft then windowMaxNewSum maxNew year first3 else 0)
    if maxPossible < required then false
    else if year = first3 ∧ nextStates.card < required then false
    else true
  else true

/-- Diversification bonus inside the window (lines 753-757): number of
newly introduced states times 400,000 times the inclusive years left. -/
def bonusScore (first3 year : ℕ) (statesFirst3 : Finset ℕ) (b : Bundle) : ℚ :=
  if year ≤ first3 then
    b.score + ((b.stateMask \ statesFirst3).card : ℚ) * (400000 * ((first3 - year + 1 : ℕ) : ℚ))
  else b.score

/-- Scan of the whole bundle list of one year (lines 724-761): track the
single admissible bundle with the highest bonus-adjusted score, strict
greater-than so the first encountered bundle wins ties. -/
def pickBest (cand : List CityRow) (maxNew : List ℕ) (first3 required year : ℕ)
    (launched statesFirst3 : Finset ℕ) (bundles : List Bundle) : Option Bundle :=
  bundles.foldl (fun best b =>
    if bundleAdmissible cand maxNew first3 required year launched statesFirst3 b then
      match best with
      | none => some b
      | some b0 =>
          if bonusScore first3 year statesFirst3 b0 < bonusScore first3 year statesFirst3 b
          then some b else some b0
    else best) none

/-- Result of the year-by-year greedy pass: either the first year with no
surviving bundle, or the chosen bundle per year plus the accumulated
first-window state set. -/
inductive GreedyResult
  | abort (year : ℕ)
  | done (chosen : List Bundle) (statesFirst3 : Finset ℕ)
deriving DecidableEq

/-- Sequential greedy assignment (lines 717-771): launched cities and the
first-window state set are threaded through the years; a year with no
surviving bundle aborts the whole optimization. -/
def runYears (cand : List CityRow) (maxNew : List ℕ) (bundlesFor : ℕ → List Bundle)
    (first3 required : ℕ) : List ℕ → Finset ℕ → Finset ℕ → GreedyResult
  | [], _, states => .done [] states
  | year :: rest, launched, states =>
    match pickBest cand maxNew first3 required year launched states (bundlesFor year) with
    | none => .abort year
    | some b =>
      match runYears cand maxNew bundlesFor first3 required rest (launched ∪ b.mask)
          (if year ≤ first3 then states ∪ b.stateMask else states) with
      | .abort y => .abort y
      | .done chosen st => .done (b :: chosen) st

/-- Optimization status values written to the optimization_status column. -/
inductive OptStatus
  | UNASSIGNED
  | NO_FEASIBLE_GO_OR_CONDITIONAL_CITIES
  | INFEASIBLE_CONSTRAINT_SET
  | HARD_CONSTRAINED_SELECTION
deriving DecidableEq

/-- Outcome of the optimization: no candidates at all, infeasible (with
the aborting year when a year had no surviving bundle, none when the
diversification floor was unmet after the full scan), or success with
the year schedule of candidate positions and the first-window states. -/
inductive OptResult
  | noCandidates
  | infeasible (abortYear : Option ℕ)
  | success (schedule : List (List ℕ)) (statesFirst3 : Finset ℕ)
deriving DecidableEq

def OptResult.isSuccess : OptResult → Bool
  | .success _ _ => true
  | _ => false

def OptResult.scheduleOf : OptResult → List (List ℕ)
  | .success s _ => s
  | _ => []

/-- One output row of the rollout plan (columns written in lines 639-646,
782-799 and 801-807). -/
structure PlanRow where
  rolloutYear : ℤ
  launch_wave : String
  year_capex_budget : Option ℚ
  year_capex_used : Option ℚ
  year_risk_cap : Option ℚ
  year_loss_risk_avg : Option ℚ
  selected_by_optimizer : Bool
  optimization_status : OptStatus
deriving DecidableEq

/-- Launch wave label derived purely from the assigned year (lines 801-807). -/
def launchWave (y : ℤ) : String :=
  if y = 1 then "Wave 1 Pilot"
  else if y = 2 ∨ y = 3 then "Wave 2 Scale"
  else if 0 < y then "Wave 3 Option"
  else "Hold"

/-- Initial row state before optimization (lines 639-646). -/
def initPlanRow : PlanRow :=
  { rolloutYear := -1
  , launch_wave := "Hold"
  , year_capex_budget := none
  , year_capex_used := none
  , year_risk_cap := none
  , year_loss_risk_avg := none
  , selected_by_optimizer := false
  , optimization_status := .UNASSIGNED }

/-- Year assigned to candidate position j by the schedule: 1-based index
of the combination containing j, sentinel none when unassigned. -/
def assignedYear (schedule : List (List ℕ)) (j : ℕ) : Option ℕ :=
  (schedule.findIdx? (fun combo => combo.contains j)).map (· + 1)

/-- Write-back of one selected candidate (lines 779-799): assigned year,
gross budget and risk cap of that year, the capex and mean risk realized
by its combination, the selected flag and the success status. -/
def successPlanRow (budgets : List ℚ) (caps : List ℚ) (cand : List CityRow)
    (schedule : List (List ℕ)) (j : ℕ) : PlanRow :=
  match assignedYear schedule j with
  | none => initPlanRow
  | some year =>
      let combo := schedule.getD (year - 1) []
      let capexSum := (combo.map (capexOf cand)).sum
      let riskAvg := if combo.length = 0 then 0
                     else (combo.map (lossOf cand)).sum / (combo.length : ℚ)
      { rolloutYear := (year : ℤ)
      , launch_wave := launchWave (year : ℤ)
      , year_capex_budget := some (budgets.getD (year - 1) 0)
      , year_capex_used := some capexSum
      , year_risk_cap := some (caps.getD (year - 1) 0)
      , year_loss_risk_avg := some riskAvg
      , selected_by_optimizer := true
      , optimization_status := .HARD_CONSTRAINED_SELECTION }

/-- Final result: the optimization outcome plus the per-city plan rows,
aligned with the input recommendation table (the final cosmetic re-sort
of lines 809-816 permutes rows only and is not modelled). -/
structure PortfolioResult where
  result : OptResult
  plan : List PlanRow
deriving DecidableEq

/-- Gross budgets truncated to the planning horizon (line 488). -/
def budgetsTrunc (cfg : PortfolioConfig) : List ℚ :=
  cfg.annual_capex_budget.take (planningYears cfg)

/-- Per-year launch-count limits truncated to the planning horizon (line 489). -/
def maxNewTrunc (cfg : PortfolioConfig) : List ℕ :=
  cfg.max_new_cities_per_year.take (planningYears cfg)

/-- Per-year loss-risk caps truncated to the planning horizon (line 490). -/
def capsTrunc (cfg : PortfolioConfig) : List ℚ :=
  cfg.annual_loss_risk_cap.take (planningYears cfg)

/-- Usable budgets net of the reserve: b * max(0, 1 - reserve_ratio) (line 491). -/
def usableBudgets (cfg : PortfolioConfig) : List ℚ :=
  (budgetsTrunc cfg).map (fun b => b * max 0 (1 - cfg.budget_reserve_ratio))

/-- first3_years = min(3, planning_years) (line 668). -/
def firstWindow (cfg : PortfolioConfig) : ℕ := min 3 (planningYears cfg)

/-- required_states = min(min_distinct_states_first3_years, number of
distinct states among the candidates) (line 669). -/
def requiredStates (rows : List CityRow) (cfg : PortfolioConfig) : ℕ :=
  min cfg.min_distinct_states_first3_years
    (((candidates rows).map (fun r => r.state)).toFinset.card)

/-- Precomputed feasible bundle list of one year (lines 672-715). -/
def bundlesForYear (rows : List CityRow) (cfg : PortfolioConfig) (year : ℕ) : List Bundle :=
  yearlyBundles (candidates rows) ((maxNewTrunc cfg).getD (year - 1) 0)
    ((usableBudgets cfg).getD (year - 1) 0) ((capsTrunc cfg).getD (year - 1) 0)

/-- The full greedy pass over years 1..planning_years starting from empty
launched and state sets (lines 717-771). -/
def optimizerRun (rows : List CityRow) (cfg : PortfolioConfig) : GreedyResult :=
  runYears (candidates rows) (maxNewTrunc cfg) (bundlesForYear rows cfg) (firstWindow cfg)
    (requiredStates rows cfg) (List.range' 1 (planningYears cfg)) ∅ ∅

/-- The optimizer part of build_city_portfolio (lines 639-819), starting
from the recommendation table rows. -/
def build_city_portfolio (rows : List CityRow) (cfg : PortfolioConfig) : PortfolioResult :=
  if (candidates rows).length = 0 then
    { result := .noCandidates
    , plan := rows.map (fun _ =>
        { initPlanRow with optimization_status := .NO_FEASIBLE_GO_OR_CONDITIONAL_CITIES }) }
  else
    match optimizerRun rows cfg with
    | .abort y =>
        { result := .infeasible (some y)
        , plan := rows.map (fun _ =>
            { initPlanRow with optimization_status := .INFEASIBLE_CONSTRAINT_SET }) }
    | .done chosen states =>
        if 1 ≤ firstWindow cfg ∧ states.card < requiredStates rows cfg then
          { result := .infeasible none
          , plan := rows.map (fun _ =>
              { initPlanRow with optimization_status := .INFEASIBLE_CONSTRAINT_SET }) }
        else
          { result := .success (chosen.map (fun b => b.ids)) states
          , plan := (List.range rows.length).map (fun i =>
              match (candidateIdx rows).findIdx? (fun c => c == i) with
              | none => initPlanRow
              | some j => successPlanRow (budgetsTrunc cfg) (capsTrunc cfg) (candidates rows)
                  (chosen.map (fun b => b.ids)) j) }

/-- States represented among the cities assigned to years inside the
diversification window by a schedule. -/
def windowStates (cand : List CityRow) (first3 : ℕ) (schedule : List (List ℕ)) : Finset ℕ :=
  (((schedule.take first3).flatMap id).map (stateOf cand)).toFinset

/-- Union of the identity sets of a list of bundles: the launched-city
set accumulated by selecting them. -/
def masksUnion (bs : List Bundle) : Finset ℕ :=
  (bs.map (fun b => b.mask)).foldr (fun s acc => s ∪ acc) ∅

/-- Union of the state sets of the bundles selected in years inside the
diversification window: the running state_mask_first3 accumulator. -/
def statesAcc (first3 : ℕ) (years : List ℕ) (bs : List Bundle) : Finset ℕ :=
  ((years.zip bs).filter (fun p => decide (p.1 ≤ first3))).foldr
    (fun p acc => p.2.stateMask ∪ acc) ∅

/-- Feasibility invariant of a produced plan: the schedule covers the
whole horizon; every nonempty year respects the usable post-reserve
budget, the risk cap as a mean and the launch-count limit; combinations
are duplicate-free; and no candidate appears in two different years. -/
def planFeasibilityInvariant (rows : List CityRow) (cfg : PortfolioConfig) : Prop :=
  let cand := candidates rows
  let sched := (build_city_portfolio rows cfg).result.scheduleOf
  sched.length = planningYears cfg ∧
  (∀ k, k < sched.length →
    ((sched.getD k [] ≠ []) →
      ((sched.getD k []).map (capexOf cand)).sum
          ≤ cfg.annual_capex_budget.getD k 0 * max 0 (1 - cfg.budget_reserve_ratio) ∧
      ((sched.getD k []).map (lossOf cand)).sum / ((sched.getD k []).length : ℚ)
          ≤ cfg.annual_loss_risk_cap.getD k 0 ∧
      (sched.getD k []).length ≤ cfg.max_new_cities_per_year.getD k 0) ∧
    (sched.getD k []).Nodup) ∧
  List.Pairwise (fun c d => ∀ j ∈ c, j ∉ d) sched

/-! ## Strategy evaluator and replication engine (lines 102-277)

The evaluator and engine use floating-point exp/log and numpy sampling;
they are modelled over ℝ. Distribution sampling is opaque: a Sampler
provides abstract draw families indexed by the generator seed and by the
number of sampling calls already made on that generator, which is
exactly the observable state of a freshly seeded numpy Generator. All
theorems below hold for every Sampler, so nothing about the concrete
distributions is assumed. -/

/-- Named macro-economic regime (config macro_scenarios entries). -/
structure ScenarioCfg where
  name : String
  consumer_climate_index : ℝ
  savings_rate_percent : ℝ
  inflation_percent : ℝ
  discount_shift : ℝ

/-- Membership strategy option (config strategy_options entries). -/
structure StrategyCfg where
  name : String
  membership_fee_eur : ℝ
  first_year_subsidy_eur : ℝ
  incremental_marketing_info_cues : ℝ

/-- The configuration snapshot fields read by the evaluator and engine. -/
structure SimConfig where
  scenarios : List ScenarioCfg
  strategies : List StrategyCfg
  n_replications : ℕ
  random_seed : ℕ
  n_households : ℕ
  spend_mean : ℝ
  spend_sigma : ℝ
  discount_min : ℝ
  discount_mode : ℝ
  discount_max : ℝ
  addressable_households : ℝ
  membership_fee_sensitivity : ℝ
  response_volatility_percent : ℝ
  competitor_response_base_percent : ℝ
  downside_response_uplift_percent : ℝ
  top4_market_concentration_percent : ℝ
  merchandise_gross_margin_percent : ℝ
  annual_fixed_opex_eur : ℝ
  min_wage_2026 : ℝ
  employees_per_warehouse : ℝ
  hours_per_employee_per_year : ℝ
  info_cues_min : ℝ
  indulgence : ℝ
  uncertainty_avoidance : ℝ
  long_term_orientation : ℝ

/-- State of one numpy Generator: its seed and how many sampling calls
have been made so far. np.random.default_rng(seed) starts at zero calls. -/
structure Rng where
  seed : ℕ
  counter : ℕ

def Rng.mk0 (seed : ℕ) : Rng := ⟨seed, 0⟩

def Rng.bump (r : Rng) (k : ℕ) : Rng := ⟨r.seed, r.counter + k⟩

/-- Abstract distribution sampling: each family maps (seed, call index,
distribution parameters) to the drawn values. -/
structure Sampler where
  lognormal : ℕ → ℕ → ℝ → ℝ → ℕ → List ℝ
  triangular : ℕ → ℕ → ℝ → ℝ → ℝ → ℕ → List ℝ
  normalArray : ℕ → ℕ → ℝ → ℝ → ℕ → List ℝ
  normalScalar : ℕ → ℕ → ℝ → ℝ → ℝ

/-- generate_draws (lines 102-118): lognormal spend with log-space mean
derived from the target mean, triangular discount shifted by the
scenario discount_shift with floor/ordering guards, and normal latent
noise. Three sampling calls advance the generator state by three. -/
noncomputable def generate_draws (S : Sampler) (cfg : SimConfig) (sc : ScenarioCfg)
    (rng : Rng) : (List ℝ × List ℝ × List ℝ) × Rng :=
  let n := cfg.n_households
  let mu := Real.log cfg.spend_mean - cfg.spend_sigma ^ 2 / 2
  let spends := S.lognormal rng.seed rng.counter mu cfg.spend_sigma n
  let d_min := max 0.02 (cfg.discount_min + sc.discount_shift)
  let d_mode := max (d_min + 0.001) (cfg.discount_mode + sc.discount_shift)
  let d_max := max (d_mode + 0.001) (cfg.discount_max + sc.discount_shift)
  let discounts := S.triangular rng.seed (rng.counter + 1) d_min d_mode d_max n
  let noise := S.normalArray rng.seed (rng.counter + 2) 0 0.06 n
  ((spends, discounts, noise), rng.bump 3)

/-- round(x, 3) of the consumer model; Mathlib round is half-up while
Python uses half-even, which differ only on exact half-thousandths. -/
noncomputable def round3 (x : ℝ) : ℝ := ((round (x * 1000) : ℤ) : ℝ) / 1000

open Classical in
/-- calculate_impulse_resistance (consumer_psychology_model.py lines
75-113) with scenario overrides for climate and savings rate; the 1.5x
savings-trap multiplier applies when climate < -20 and savings > 15. -/
noncomputable def calculate_impulse_resistance (cfg : SimConfig) (climate savings : ℝ) : ℝ :=
  let indulgence_penalty := (100 - cfg.indulgence) / 100
  let risk_penalty := cfg.uncertainty_avoidance / 100
  let future_orientation_penalty := cfg.long_term_orientation / 100
  let base := 0.7 + 0.7 * indulgence_penalty + 0.3 * risk_penalty
    + 0.25 * future_orientation_penalty
  round3 (if climate < -20 ∧ savings > 15 then base * 1.5 else base)

/-- GermanConsumer.INFO_CUE_THRESHOLD. -/
def INFO_CUE_THRESHOLD : ℝ := 7

/-- info_cues (lines 142-146). -/
noncomputable def infoCues (cfg : SimConfig) (st : StrategyCfg) : ℝ :=
  cfg.info_cues_min - 2 + st.incremental_marketing_info_cues

/-- Competitor penalty (lines 153-172): base response plus a
scenario-dependent uplift, fee exposure, concentration drag, minus the
information-density mitigation, plus the random shock, clipped to
[0, 0.08]. -/
noncomputable def competitorPenalty (cfg : SimConfig) (st : StrategyCfg) (sc : ScenarioCfg)
    (shock : ℝ) : ℝ :=
  let eff := effectiveFee st.membership_fee_eur st.first_year_subsidy_eur
  let uplift := if sc.name = "downside_stress"
    then cfg.downside_response_uplift_percent / 100
    else if sc.name = "upside_recovery"
      then -0.35 * (cfg.downside_response_uplift_percent / 100)
      else 0
  let fee_exposure := max 0 ((eff - 35) / 100) * 0.02
  let concentration_drag := cfg.top4_market_concentration_percent / 100 * 0.002
  let info_mitigation := max 0 (infoCues cfg st - INFO_CUE_THRESHOLD) * 0.0015
  clip 0 0.08 (cfg.competitor_response_base_percent / 100 + uplift + fee_exposure
    + concentration_drag - info_mitigation + shock)

/-- One household draw triple. -/
structure Household where
  spend : ℝ
  discount : ℝ
  noise : ℝ

/-- Pointwise pairing of the three parallel draw arrays. -/
def zip3 : List ℝ → List ℝ → List ℝ → List Household
  | a :: as, b :: bs, c :: cs => ⟨a, b, c⟩ :: zip3 as bs cs
  | _, _, _ => []

/-- The per-household latent adoption score (lines 174-179). -/
noncomputable def latentScore (cfg : SimConfig) (st : StrategyCfg) (sc : ScenarioCfg)
    (shock : ℝ) (h : Household) : ℝ :=
  let eff := effectiveFee st.membership_fee_eur st.first_year_subsidy_eur
  let resistance := calculate_impulse_resistance cfg
    sc.consumer_climate_index sc.savings_rate_percent
  (h.spend * h.discount - eff) / 220
    + (infoCues cfg st - INFO_CUE_THRESHOLD) * 0.18
    - eff * cfg.membership_fee_sensitivity
    - 0.85 * resistance
    - competitorPenalty cfg st sc shock * 8
    + h.noise

/-- Logistic transform 1 / (1 + exp(-x)). -/
noncomputable def logistic (x : ℝ) : ℝ := 1 / (1 + Real.exp (-x))

/-- probs = logistic of the latent score clipped to [-30, 30] (line 180). -/
noncomputable def adoptionProbability (cfg : SimConfig) (st : StrategyCfg) (sc : ScenarioCfg)
    (shock : ℝ) (h : Household) : ℝ :=
  logistic (clip (-30) 30 (latentScore cfg st sc shock h))

/-- adopted = probs > 0.5 (line 181): the deterministic per-household
adoption decision. -/
def adopts (cfg : SimConfig) (st : StrategyCfg) (sc : ScenarioCfg)
    (shock : ℝ) (h : Household) : Prop :=
  1/2 < adoptionProbability cfg st sc shock h

/-- Arithmetic mean of a list (numpy ndarray.mean). -/
noncomputable def listMean (l : List ℝ) : ℝ := l.sum / (l.length : ℝ)

/-- One outcome row of evaluate_strategy (lines 208-226, the fields the
claims touch). -/
structure EvalRow where
  scenario : String
  strategy : String
  effective_fee : ℝ
  competitor_penalty_pct : ℝ
  adoption_rate : ℝ
  projected_member_households : ℝ
  projected_member_spend : ℝ
  membership_revenue : ℝ
  merchandise_contribution : ℝ
  total_contribution : ℝ
  break_even_monthly : ℝ

open Classical in
/-- evaluate_strategy (lines 121-227): deterministic threshold adoption,
aggregate adoption rate, contribution with the zero-adopter fallback to
the full-sample mean discount, and the inflation-adjusted break-even. -/
noncomputable def evaluate_strategy (cfg : SimConfig) (st : StrategyCfg) (sc : ScenarioCfg)
    (spends discounts noise : List ℝ) (shock : ℝ) : EvalRow :=
  let households := zip3 spends discounts noise
  let adopted := households.filter (fun h => decide (adopts cfg st sc shock h))
  let eff := effectiveFee st.membership_fee_eur st.first_year_subsidy_eur
  let penalty := competitorPenalty cfg st sc shock
  let adoption_rate := (adopted.length : ℝ) / (households.length : ℝ)
  let projected_member_households := adoption_rate * cfg.addressable_households
  let adopted_spend_mean := if adopted.length = 0 then 0
    else listMean (adopted.map (fun h => h.spend))
  let adopted_discount_mean := if adopted.length = 0 then listMean discounts
    else listMean (adopted.map (fun h => h.discount))
  let projected_member_spend := projected_member_households * adopted_spend_mean * (1 - penalty)
  let membership_revenue := projected_member_households * eff
  let gross_profit := projected_member_spend * (cfg.merchandise_gross_margin_percent / 100)
  let discount_cost := projected_member_spend * adopted_discount_mean
  let merchandise_contribution := gross_profit - discount_cost
  let labor_cost := cfg.min_wage_2026 * cfg.employees_per_warehouse
    * cfg.hours_per_employee_per_year
  let total_contribution := membership_revenue + merchandise_contribution
    - labor_cost - cfg.annual_fixed_opex_eur
  { scenario := sc.name
  , strategy := st.name
  , effective_fee := eff
  , competitor_penalty_pct := penalty * 100
  , adoption_rate := adoption_rate
  , projected_member_households := projected_member_households
  , projected_member_spend := projected_member_spend
  , membership_revenue := membership_revenue
  , merchandise_contribution := merchandise_contribution
  , total_contribution := total_contribution
  , break_even_monthly := break_even_monthly_spend eff (listMean discounts)
      (sc.inflation_percent / 100) }

/-- One row of the replication table: the evaluator outcome tagged with
its replication id (lines 261-262). -/
structure RepRow where
  replicationId : ℕ
  row : EvalRow

/-- The per-strategy inner loop of the replication engine (lines
245-262): each strategy draws one competitor shock from the shared
generator, advancing its state, then evaluates on the shared draws. -/
noncomputable def strategyLoop (S : Sampler) (cfg : SimConfig) (sc : ScenarioCfg) (rep : ℕ)
    (spends discounts noise : List ℝ) : List StrategyCfg → Rng → List RepRow
  | [], _ => []
  | st :: rest, rng =>
    { replicationId := rep
    , row := evaluate_strategy cfg st sc spends discounts noise
        (S.normalScalar rng.seed rng.counter 0 (cfg.response_volatility_percent / 100)) }
      :: strategyLoop S cfg sc rep spends discounts noise rest (rng.bump 1)

/-- run_replication_engine (lines 230-277): for each scenario index i and
replication r, a fresh generator seeded with base_seed + i*10000 + r
produces one draw triple shared by all strategies of that pair. -/
noncomputable def run_replication_engine (S : Sampler) (cfg : SimConfig) : List RepRow :=
  cfg.scenarios.enum.flatMap (fun p =>
    (List.range cfg.n_replications).flatMap (fun rep =>
      let rng := Rng.mk0 (cfg.random_seed + p.1 * 10000 + rep)
      let dr := generate_draws S cfg p.2 rng
      strategyLoop S cfg p.2 rep dr.1.1 dr.1.2.1 dr.1.2.2 cfg.strategies dr.2))

/-- Closed-form replication table: row (i, r, k) is built from the draw
triple of the generator seeded with base_seed + i*10000 + r at call
indices 0, 1, 2, and from the competitor shock drawn at call index
3 + k of that same generator; the draws are shared across strategies. -/
noncomputable def replication_table_spec (S : Sampler) (cfg : SimConfig) : List RepRow :=
  cfg.scenarios.enum.flatMap (fun p =>
    (List.range cfg.n_replications).flatMap (fun rep =>
      let seed := cfg.random_seed + p.1 * 10000 + rep
      let mu := Real.log cfg.spend_mean - cfg.spend_sigma ^ 2 / 2
      let spends := S.lognormal seed 0 mu cfg.spend_sigma cfg.n_households
      let d_min := max 0.02 (cfg.discount_min + p.2.discount_shift)
      let d_mode := max (d_min + 0.001) (cfg.discount_mode + p.2.discount_shift)
      let d_max := max (d_mode + 0.001) (cfg.discount_max + p.2.discount_shift)
      let discounts := S.triangular seed 1 d_min d_mode d_max cfg.n_households
      let noise := S.normalArray seed 2 0 0.06 cfg.n_households
      cfg.strategies.enum.map (fun q =>
        { replicationId := rep
        , row := evaluate_strategy cfg q.2 p.2 spends discounts noise
            (S.normalScalar seed (3 + q.1) 0 (cfg.response_volatility_percent / 100)) })))

theorem mem_combosUpTo {n kmax : ℕ} {combo : List ℕ} (h : combo ∈ combosUpTo n kmax) :
    combo.Nodup ∧ (∀ j ∈ combo, j < n) ∧ 1 ≤ combo.length ∧ combo.length ≤ kmax := by
  unfold combosUpTo at h
  simp only [List.mem_flatMap] at h
  obtain ⟨k, hk, hc⟩ := h
  rw [List.mem_sublistsLen] at hc
  obtain ⟨hsub, hlen⟩ := hc
  rw [List.mem_range'_1] at hk
  refine ⟨hsub.nodup (List.nodup_range n), fun j hj => List.mem_range.mp (hsub.subset hj), ?_, ?_⟩
  · omega
  · omega

theorem mem_yearlyBundles {cand : List CityRow} {maxNew : ℕ} {budget riskCap : ℚ} {b : Bundle}
    (hb : b ∈ yearlyBundles cand maxNew budget riskCap) :
    b = mkBundle cand b.ids ∧ b.ids.Nodup ∧ (∀ j ∈ b.ids, j < cand.length) ∧
      (b.ids = [] ∨ (b.ids.length ≤ maxNew ∧ b.capexSum ≤ budget ∧ b.riskAvg ≤ riskCap)) := by
  unfold yearlyBundles at hb
  rw [(List.perm_insertionSort _ _).mem_iff] at hb
  simp only [List.mem_append, List.mem_singleton, List.mem_filterMap] at hb
  rcases hb with h | ⟨combo, hc, hfm⟩
  · subst h
    exact ⟨rfl, List.nodup_nil, by simp [mkBundle], Or.inl rfl⟩
  · obtain ⟨hnd, hlt, h1, h2⟩ := mem_combosUpTo hc
    by_cases hcap : budget < (mkBundle cand combo).capexSum
    · simp only [hcap, if_pos] at hfm
      exact absurd hfm (by simp)
    · by_cases hrisk : riskCap < (mkBundle cand combo).riskAvg
      · simp only [hcap, if_neg, hrisk, if_pos] at hfm
        exact absurd hfm (by simp)
      · simp only [hcap, hrisk, if_neg, ite_false] at hfm
        have hb' : b = mkBundle cand combo := by
          simpa using hfm.symm
        subst hb'
        refine ⟨rfl, hnd, hlt, Or.inr ⟨?_, not_lt.mp hcap, not_lt.mp hrisk⟩⟩
        simpa [mkBundle] using le_trans h2 (min_le_left _ _)

theorem emptyBundle_mem_yearlyBundles (cand : List CityRow) (maxNew : ℕ) (budget riskCap : ℚ) :
    mkBundle cand [] ∈ yearlyBundles cand maxNew budget riskCap := by
  unfold yearlyBundles
  rw [(List.perm_insertionSort _ _).mem_iff]
  simp

theorem emptyBundle_fields (cand : List CityRow) :
    (mkBundle cand []).ids = [] ∧ (mkBundle cand []).mask = ∅ ∧
      (mkBundle cand []).stateMask = ∅ ∧ (mkBundle cand []).score = 0 ∧
      (mkBundle cand []).capexSum = 0 ∧ (mkBundle cand []).riskAvg = 0 := by
  simp [mkBundle]

theorem bundleAdmissible_inter_empty {cand : List CityRow} {maxNew : List ℕ}
    {first3 required year : ℕ} {launched statesFirst3 : Finset ℕ} {b : Bundle}
    (h : bundleAdmissible cand maxNew first3 required year launched statesFirst3 b = true) :
    b.mask ∩ launched = ∅ := by
  unfold bundleAdmissible at h
  by_cases hc : b.mask ∩ launched ≠ ∅
  · rw [if_pos hc] at h
    exact absurd h (by simp)
  · exact not_not.mp hc

theorem emptyBundle_admissible_outside_window (cand : List CityRow) (maxNew : List ℕ)
    (first3 required year : ℕ) (launched statesFirst3 : Finset ℕ) (hy : first3 < year) :
    bundleAdmissible cand maxNew first3 required year launched statesFirst3
      (mkBundle cand []) = true := by
  unfold bundleAdmissible
  have hmask : (mkBundle cand []).mask = ∅ := by simp [mkBundle]
  rw [hmask]
  simp [not_le.mpr hy]

theorem pickBest_eq_some {cand : List CityRow} {maxNew : List ℕ}
    {first3 required year : ℕ} {launched statesFirst3 : Finset ℕ}
    {bundles : List Bundle} {b : Bundle}
    (h : pickBest cand maxNew first3 required year launched statesFirst3 bundles = some b) :
    b ∈ bundles ∧
      bundleAdmissible cand maxNew first3 required year launched statesFirst3 b = true := by
  unfold pickBest at h
  suffices H : ∀ (l : List Bundle) (acc : Option Bundle),
      l.foldl (fun best bd =>
        if bundleAdmissible cand maxNew first3 required year launched statesFirst3 bd then
          match best with
          | none => some bd
          | some b0 =>
              if bonusScore first3 year statesFirst3 b0 < bonusScore first3 year statesFirst3 bd
              then some bd else some b0
        else best) acc = some b →
      acc = some b ∨ (b ∈ l ∧
        bundleAdmissible cand maxNew first3 required year launched statesFirst3 b = true) by
    rcases H bundles none h with h0 | h1
    · exact absurd h0 (by simp)
    · exact h1
  intro l
  induction l with
  | nil => intro acc hacc; exact Or.inl hacc
  | cons c t ih =>
    intro acc hacc
    rw [List.foldl_cons] at hacc
    rcases ih _ hacc with hstep | hmem
    · by_cases hadm : bundleAdmissible cand maxNew first3 required year launched statesFirst3 c = true
      · rw [if_pos hadm] at hstep
        cases acc with
        | none =>
          have : c = b := by simpa using hstep
          exact Or.inr ⟨this ▸ List.mem_cons_self c t, this ▸ hadm⟩
        | some b0 =>
          replace hstep : (if bonusScore first3 year statesFirst3 b0 <
              bonusScore first3 year statesFirst3 c then some c else some b0) = some b := hstep
          by_cases hlt : bonusScore first3 year statesFirst3 b0 < bonusScore first3 year statesFirst3 c
          · rw [if_pos hlt] at hstep
            have : c = b := by simpa using hstep
            exact Or.inr ⟨this ▸ List.mem_cons_self c t, this ▸ hadm⟩
          · rw [if_neg hlt] at hstep
            exact Or.inl hstep
      · rw [if_neg hadm] at hstep
        exact Or.inl hstep
    · exact Or.inr ⟨List.mem_cons_of_mem _ hmem.1, hmem.2⟩

theorem pickBest_isSome {cand : List CityRow} {maxNew : List ℕ}
    {first3 required year : ℕ} {launched statesFirst3 : Finset ℕ} {bundles : List Bundle}
    (h : ∃ b ∈ bundles,
      bundleAdmissible cand maxNew first3 required year launched statesFirst3 b = true) :
    (pickBest cand maxNew first3 required year launched statesFirst3 bundles).isSome = true := by
  unfold pickBest
  suffices H : ∀ (l : List Bundle) (acc : Option Bundle),
      (acc.isSome = true ∨ ∃ b ∈ l,
        bundleAdmissible cand maxNew first3 required year launched statesFirst3 b = true) →
      (l.foldl (fun best bd =>
        if bundleAdmissible cand maxNew first3 required year launched statesFirst3 bd then
          match best with
          | none => some bd
          | some b0 =>
              if bonusScore first3 year statesFirst3 b0 < bonusScore first3 year statesFirst3 bd
              then some bd else some b0
        else best) acc).isSome = true by
    exact H bundles none (Or.inr h)
  intro l
  induction l with
  | nil =>
    intro acc hacc
    rcases hacc with h0 | ⟨b, hb, _⟩
    · simpa using h0
    · exact absurd hb (List.not_mem_nil b)
  | cons c t ih =>
    intro acc hacc
    rw [List.foldl_cons]
    by_cases hadm : bundleAdmissible cand maxNew first3 required year launched statesFirst3 c = true
    · rw [if_pos hadm]
      apply ih
      left
      cases acc with
      | none => simp
      | some v =>
        show (if bonusScore first3 year statesFirst3 v < bonusScore first3 year statesFirst3 c
          then some c else some v).isSome = true
        split <;> simp
    · rw [if_neg hadm]
      apply ih
      rcases hacc with h0 | ⟨b, hb, hbadm⟩
      · exact Or.inl h0
      · rcases List.mem_cons.mp hb with rfl | hbt
        · exact absurd hbadm hadm
        · exact Or.inr ⟨b, hbt, hbadm⟩

theorem masksUnion_nil : masksUnion [] = ∅ := rfl

theorem masksUnion_cons (b : Bundle) (bs : List Bundle) :
    masksUnion (b :: bs) = b.mask ∪ masksUnion bs := rfl

theorem statesAcc_nil (first3 : ℕ) (years : List ℕ) : statesAcc first3 years [] = ∅ := by
  unfold statesAcc
  simp

theorem statesAcc_nil_years (first3 : ℕ) (bs : List Bundle) : statesAcc first3 [] bs = ∅ := rfl

theorem statesAcc_cons (first3 year : ℕ) (years : List ℕ) (b : Bundle) (bs : List Bundle) :
    statesAcc first3 (year :: years) (b :: bs) =
      if year ≤ first3 then b.stateMask ∪ statesAcc first3 years bs
      else statesAcc first3 years bs := by
  unfold statesAcc
  rw [List.zip_cons_cons, List.filter_cons]
  by_cases hy : year ≤ first3
  · simp [hy]
  · simp [hy]

theorem mask_subset_masksUnion {bs : List Bundle} {b : Bundle} (h : b ∈ bs) :
    b.mask ⊆ masksUnion bs := by
  induction bs with
  | nil => exact absurd h (List.not_mem_nil b)
  | cons c t ih =>
    rw [masksUnion_cons]
    rcases List.mem_cons.mp h with rfl | ht
    · exact Finset.subset_union_left
    · exact (ih ht).trans Finset.subset_union_right

theorem runYears_abort_le_first3 {cand : List CityRow} {maxNew : List ℕ}
    {bundlesFor : ℕ → List Bundle} {first3 required : ℕ} :
    ∀ (years : List ℕ) (launched states : Finset ℕ) (y : ℕ),
      (∀ z ∈ years, mkBundle cand [] ∈ bundlesFor z) →
      runYears cand maxNew bundlesFor first3 required years launched states = .abort y →
      y ∈ years ∧ y ≤ first3 := by
  intro years
  induction years with
  | nil =>
    intro launched states y _ h
    exact absurd h (by simp [runYears])
  | cons year rest ih =>
    intro launched states y hempty h
    cases hpb : pickBest cand maxNew first3 required year launched states (bundlesFor year) with
    | none =>
      simp only [runYears, hpb] at h
      have hy : year = y := by simpa using h
      refine ⟨hy ▸ List.mem_cons_self _ _, ?_⟩
      by_contra hgt
      push_neg at hgt
      have hsome := @pickBest_isSome cand maxNew first3 required year launched states
        (bundlesFor year)
        ⟨mkBundle cand [], hempty year (List.mem_cons_self _ _),
          emptyBundle_admissible_outside_window cand maxNew first3 required year launched states
            (hy ▸ hgt)⟩
      rw [hpb] at hsome
      exact absurd hsome (by simp)
    | some b =>
      simp only [runYears, hpb] at h
      cases hrec : runYears cand maxNew bundlesFor first3 required rest (launched ∪ b.mask)
          (if year ≤ first3 then states ∪ b.stateMask else states) with
      | abort y2 =>
        simp only [hrec] at h
        obtain ⟨hmem, hle⟩ := ih _ _ y2 (fun z hz => hempty z (List.mem_cons_of_mem _ hz)) hrec
        have hy : y2 = y := by simpa using h
        exact ⟨List.mem_cons_of_mem _ (hy ▸ hmem), hy ▸ hle⟩
      | done chosen st =>
        simp only [hrec] at h
        exact absurd h (by simp)

theorem runYears_done_spec {cand : List CityRow} {maxNew : List ℕ}
    {bundlesFor : ℕ → List Bundle} {first3 required : ℕ} :
    ∀ (years : List ℕ) (launched states : Finset ℕ) (chosen : List Bundle) (stFinal : Finset ℕ),
      runYears cand maxNew bundlesFor first3 required years launched states = .done chosen stFinal →
      chosen.length = years.length ∧
      stFinal = states ∪ statesAcc first3 years chosen ∧
      ∀ k, k < years.length →
        chosen.getD k default ∈ bundlesFor (years.getD k 0) ∧
        bundleAdmissible cand maxNew first3 required (years.getD k 0)
          (launched ∪ masksUnion (chosen.take k))
          (states ∪ statesAcc first3 (years.take k) (chosen.take k))
          (chosen.getD k default) = true := by
  intro years
  induction years with
  | nil =>
    intro launched states chosen stFinal h
    simp only [runYears, GreedyResult.done.injEq] at h
    obtain ⟨hch, hst⟩ := h
    subst hch hst
    refine ⟨rfl, ?_, ?_⟩
    · rw [statesAcc_nil_years, Finset.union_empty]
    · intro k hk
      exact absurd hk (by simp)
  | cons year rest ih =>
    intro launched states chosen stFinal h
    cases hpb : pickBest cand maxNew first3 required year launched states (bundlesFor year) with
    | none =>
      simp only [runYears, hpb] at h
      exact absurd h (by simp)
    | some b =>
      simp only [runYears, hpb] at h
      cases hrec : runYears cand maxNew bundlesFor first3 required rest (launched ∪ b.mask)
          (if year ≤ first3 then states ∪ b.stateMask else states) with
      | abort y2 =>
        simp only [hrec] at h
        exact absurd h (by simp)
      | done chosen2 st2 =>
        simp only [hrec, GreedyResult.done.injEq] at h
        obtain ⟨hch, hst⟩ := h
        subst hch hst
        obtain ⟨ihlen, ihst, ihk⟩ := ih _ _ _ _ hrec
        refine ⟨by simpa using ihlen, ?_, ?_⟩
        · rw [ihst, statesAcc_cons]
          by_cases hy : year ≤ first3
          · rw [if_pos hy, if_pos hy, Finset.union_assoc]
          · rw [if_neg hy, if_neg hy]
        · intro k hk
          cases k with
          | zero =>
            refine ⟨by simpa using (pickBest_eq_some hpb).1, ?_⟩
            have hadm := (pickBest_eq_some hpb).2
            simpa [masksUnion_nil, statesAcc_nil_years, Finset.union_empty] using hadm
          | succ k =>
            have hk' : k < rest.length := by simpa using hk
            obtain ⟨hmem, hadm⟩ := ihk k hk'
            refine ⟨by simpa using hmem, ?_⟩
            have e1 : launched ∪ masksUnion ((b :: chosen2).take (k + 1))
                = (launched ∪ b.mask) ∪ masksUnion (chosen2.take k) := by
              rw [List.take_succ_cons, masksUnion_cons, Finset.union_assoc]
            have e2 : states ∪ statesAcc first3 ((year :: rest).take (k + 1))
                  ((b :: chosen2).take (k + 1))
                = (if year ≤ first3 then states ∪ b.stateMask else states)
                  ∪ statesAcc first3 (rest.take k) (chosen2.take k) := by
              rw [List.take_succ_cons, List.take_succ_cons, statesAcc_cons]
              by_cases hy : year ≤ first3
              · rw [if_pos hy, if_pos hy, Finset.union_assoc]
              · rw [if_neg hy, if_neg hy]
            rw [List.getD_cons_succ, List.getD_cons_succ, e1, e2]
            exact hadm

theorem getD_take_of_lt {α : Type} (l : List α) (n k : ℕ) (d : α) (h : k < n) :
    (l.take n).getD k d = l.getD k d := by
  rw [List.getD_eq_getElem?_getD, List.getD_eq_getElem?_getD, List.getElem?_take, if_pos h]

theorem getD_map_of_lt {α β : Type} (f : α → β) (l : List α) (k : ℕ) (d : β) (d' : α)
    (h : k < l.length) : (l.map f).getD k d = f (l.getD k d') := by
  have hm : k < (l.map f).length := by simpa using h
  rw [List.getD_eq_getElem?_getD, List.getElem?_eq_getElem hm,
    List.getD_eq_getElem?_getD, List.getElem?_eq_getElem h]
  simp

theorem getD_range'_one (py k : ℕ) (h : k < py) : (List.range' 1 py).getD k 0 = 1 + k := by
  have hl : k < (List.range' 1 py).length := by simpa using h
  rw [List.getD_eq_getElem?_getD, List.getElem?_eq_getElem hl]
  simp [List.getElem_range']

theorem planningYears_le_budget_length (cfg : PortfolioConfig) :
    planningYears cfg ≤ cfg.annual_capex_budget.length := by
  unfold planningYears
  omega

theorem planningYears_le_maxNew_length (cfg : PortfolioConfig) :
    planningYears cfg ≤ cfg.max_new_cities_per_year.length := by
  unfold planningYears
  exact le_trans (min_le_right _ _) (min_le_left _ _)

theorem planningYears_le_caps_length (cfg : PortfolioConfig) :
    planningYears cfg ≤ cfg.annual_loss_risk_cap.length := by
  unfold planningYears
  exact le_trans (min_le_right _ _) (min_le_right _ _)

theorem usableBudgets_getD (cfg : PortfolioConfig) (k : ℕ) (h : k < planningYears cfg) :
    (usableBudgets cfg).getD k 0
      = cfg.annual_capex_budget.getD k 0 * max 0 (1 - cfg.budget_reserve_ratio) := by
  unfold usableBudgets budgetsTrunc
  have hlen : k < (cfg.annual_capex_budget.take (planningYears cfg)).length := by
    simp only [List.length_take]
    exact lt_min h (lt_of_lt_of_le h (planningYears_le_budget_length cfg))
  rw [getD_map_of_lt _ _ _ _ 0 hlen, getD_take_of_lt _ _ _ _ h]

theorem maxNewTrunc_getD (cfg : PortfolioConfig) (k : ℕ) (h : k < planningYears cfg) :
    (maxNewTrunc cfg).getD k 0 = cfg.max_new_cities_per_year.getD k 0 := by
  unfold maxNewTrunc
  exact getD_take_of_lt _ _ _ _ h

theorem capsTrunc_getD (cfg : PortfolioConfig) (k : ℕ) (h : k < planningYears cfg) :
    (capsTrunc cfg).getD k 0 = cfg.annual_loss_risk_cap.getD k 0 := by
  unfold capsTrunc
  exact getD_take_of_lt _ _ _ _ h

theorem build_isSuccess_elim {rows : List CityRow} {cfg : PortfolioConfig}
    (h : (build_city_portfolio rows cfg).result.isSuccess = true) :
    ∃ chosen st, optimizerRun rows cfg = .done chosen st ∧
      (build_city_portfolio rows cfg).result = .success (chosen.map (fun b => b.ids)) st ∧
      ¬(1 ≤ firstWindow cfg ∧ st.card < requiredStates rows cfg) := by
  unfold build_city_portfolio at h ⊢
  by_cases hc : (candidates rows).length = 0
  · rw [if_pos hc] at h
    exact absurd h (by simp [OptResult.isSuccess])
  · rw [if_neg hc] at h ⊢
    cases hrun : optimizerRun rows cfg with
    | abort y =>
      simp only [hrun] at h
      exact absurd h (by simp [OptResult.isSuccess])
    | done chosen st =>
      simp only [hrun] at h ⊢
      by_cases hinf : 1 ≤ firstWindow cfg ∧ st.card < requiredStates rows cfg
      · rw [if_pos hinf] at h
        exact absurd h (by simp [OptResult.isSuccess])
      · rw [if_neg hinf]
        exact ⟨chosen, st, rfl, rfl, hinf⟩

theorem chosen_bundle_spec {rows : List CityRow} {cfg : PortfolioConfig}
    {chosen : List Bundle} {st : Finset ℕ}
    (hrun : optimizerRun rows cfg = .done chosen st) :
    chosen.length = planningYears cfg ∧
    st = statesAcc (firstWindow cfg) (List.range' 1 (planningYears cfg)) chosen ∧
    ∀ k, k < planningYears cfg →
      (chosen.getD k default ∈ bundlesForYear rows cfg (1 + k) ∧
       bundleAdmissible (candidates rows) (maxNewTrunc cfg) (firstWindow cfg)
         (requiredStates rows cfg) (1 + k) (masksUnion (chosen.take k))
         (statesAcc (firstWindow cfg) ((List.range' 1 (planningYears cfg)).take k)
           (chosen.take k))
         (chosen.getD k default) = true) := by
  unfold optimizerRun at hrun
  obtain ⟨hlen, hst, hk⟩ := runYears_done_spec _ _ _ _ _ hrun
  have hplen : (List.range' 1 (planningYears cfg)).length = planningYears cfg := by
    simp
  refine ⟨by rw [hlen, hplen], by simpa using hst, fun k hk' => ?_⟩
  have hkl : k < (List.range' 1 (planningYears cfg)).length := by rw [hplen]; exact hk'
  obtain ⟨hmem, hadm⟩ := hk k hkl
  rw [getD_range'_one _ _ hk'] at hmem hadm
  refine ⟨hmem, ?_⟩
  simpa [Finset.empty_union] using hadm

theorem chosen_bundle_shape {rows : List CityRow} {cfg : PortfolioConfig}
    {b : Bundle} {k : ℕ} (hmem : b ∈ bundlesForYear rows cfg (1 + k)) :
    b = mkBundle (candidates rows) b.ids ∧ b.ids.Nodup ∧
      (∀ j ∈ b.ids, j < (candidates rows).length) ∧
      (b.ids = [] ∨ (b.ids.length ≤ (maxNewTrunc cfg).getD k 0 ∧
        b.capexSum ≤ (usableBudgets cfg).getD k 0 ∧
        b.riskAvg ≤ (capsTrunc cfg).getD k 0)) := by
  unfold bundlesForYear at hmem
  have hk1 : 1 + k - 1 = k := by omega
  rw [hk1] at hmem
  exact mem_yearlyBundles hmem

theorem bundle_fields_of_shape {cand : List CityRow} {b : Bundle}
    (h : b = mkBundle cand b.ids) :
    b.mask = b.ids.toFinset ∧ b.stateMask = (b.ids.map (stateOf cand)).toFinset ∧
      b.capexSum = (b.ids.map (capexOf cand)).sum ∧
      b.riskAvg = (if b.ids.length = 0 then 0
        else (b.ids.map (lossOf cand)).sum / (b.ids.length : ℚ)) := by
  refine ⟨?_, ?_, ?_, ?_⟩ <;> (conv_lhs => rw [h]) <;> rfl

/-- C3: for every plan the optimizer produces, each year with assigned
cities respects the usable post-reserve budget as a capex sum, the risk
cap as a mean loss probability, and the launch-count limit; schedules
are duplicate-free and no city is assigned to more than one year. -/
theorem optimizer_schedule_invariant (rows : List CityRow) (cfg : PortfolioConfig)
    (h : (build_city_portfolio rows cfg).result.isSuccess = true) :
    planFeasibilityInvariant rows cfg := by
  obtain ⟨chosen, st, hrun, hres, _⟩ := build_isSuccess_elim h
  obtain ⟨hlen, _, hk⟩ := chosen_bundle_spec hrun
  unfold planFeasibilityInvariant
  rw [hres]
  simp only [OptResult.scheduleOf]
  have hslen : (chosen.map (fun b => b.ids)).length = planningYears cfg := by
    rw [List.length_map]; exact hlen
  have hgetD : ∀ k, k < planningYears cfg →
      (chosen.map (fun b => b.ids)).getD k [] = (chosen.getD k default).ids := by
    intro k hk'
    exact getD_map_of_lt _ _ _ _ default (hlen ▸ hk')
  refine ⟨hslen, ?_, ?_⟩
  · intro k hk'
    rw [hslen] at hk'
    obtain ⟨hmem, _⟩ := hk k hk'
    obtain ⟨hshape, hnd, _, hcon⟩ := chosen_bundle_shape hmem
    obtain ⟨_, _, hcapex, hrisk⟩ := bundle_fields_of_shape hshape
    rw [hgetD k hk']
    refine ⟨fun hne => ?_, hnd⟩
    rcases hcon with hnil | ⟨hcount, hcap, hcapR⟩
    · exact absurd hnil hne
    refine ⟨?_, ?_, ?_⟩
    · rw [← hcapex]
      rw [usableBudgets_getD cfg k hk'] at hcap
      exact hcap
    · have hlen0 : ¬((chosen.getD k default).ids.length = 0) := by
        simpa [List.length_eq_zero] using hne
      have hq : ((chosen.getD k default).ids.map (lossOf (candidates rows))).sum
          / (((chosen.getD k default).ids.length : ℕ) : ℚ)
          = (chosen.getD k default).riskAvg := by
        rw [hrisk, if_neg hlen0]
      rw [hq]
      rw [capsTrunc_getD cfg k hk'] at hcapR
      exact hcapR
    · rw [maxNewTrunc_getD cfg k hk'] at hcount
      exact hcount
  · rw [List.pairwise_iff_getElem]
    intro i j hi hj hij
    intro a ha
    rw [List.length_map] at hi hj
    have hipy : i < planningYears cfg := hlen ▸ hi
    have hjpy : j < planningYears cfg := hlen ▸ hj
    rw [List.getElem_map] at ha ⊢
    intro hcontra
    obtain ⟨hmemi, _⟩ := hk i hipy
    obtain ⟨hmemj, hadmj⟩ := hk j hjpy
    have hgdi : chosen.getD i default = chosen[i] := List.getD_eq_getElem chosen default hi
    have hgdj : chosen.getD j default = chosen[j] := List.getD_eq_getElem chosen default hj
    obtain ⟨hmaski, _, _, _⟩ := bundle_fields_of_shape (chosen_bundle_shape hmemi).1
    obtain ⟨hmaskj, _, _, _⟩ := bundle_fields_of_shape (chosen_bundle_shape hmemj).1
    have hdisj : (chosen.getD j default).mask ∩ masksUnion (chosen.take j) = ∅ :=
      bundleAdmissible_inter_empty hadmj
    have hamem_i : a ∈ (chosen.getD i default).mask := by
      rw [hmaski]
      refine List.mem_toFinset.mpr ?_
      rw [hgdi]
      exact ha
    have hamem_j : a ∈ (chosen.getD j default).mask := by
      rw [hmaskj]
      refine List.mem_toFinset.mpr ?_
      rw [hgdj]
      exact hcontra
    have hsub : (chosen.getD i default).mask ⊆ masksUnion (chosen.take j) := by
      apply mask_subset_masksUnion
      rw [hgdi]
      have hit : i < (chosen.take j).length := by
        rw [List.length_take]
        exact lt_min hij hi
      have heq : (chosen.take j)[i] = chosen[i] := List.getElem_take chosen
      rw [← heq]
      exact List.getElem_mem hit
    have hmem2 : a ∈ (chosen.getD j default).mask ∩ masksUnion (chosen.take j) :=
      Finset.mem_inter.mpr ⟨hamem_j, hsub hamem_i⟩
    rw [hdisj] at hmem2
    exact absurd hmem2 (Finset.not_mem_empty a)

theorem mem_union_foldr (l : List (ℕ × Bundle)) (x : ℕ) :
    x ∈ l.foldr (fun p acc => p.2.stateMask ∪ acc) ∅ ↔ ∃ p ∈ l, x ∈ p.2.stateMask := by
  induction l with
  | nil => simp
  | cons c t ih => simp [ih]

theorem statesAcc_subset {cand : List CityRow} {first3 py : ℕ} {chosen : List Bundle}
    (hlen : chosen.length = py)
    (hshape : ∀ k, k < chosen.length →
      (chosen.getD k default).stateMask
        = ((chosen.getD k default).ids.map (stateOf cand)).toFinset) :
    statesAcc first3 (List.range' 1 py) chosen
      ⊆ windowStates cand first3 (chosen.map (fun b => b.ids)) := by
  intro x hx
  unfold statesAcc at hx
  rw [mem_union_foldr] at hx
  obtain ⟨p, hp, hxp⟩ := hx
  rw [List.mem_filter] at hp
  obtain ⟨hpz, hple⟩ := hp
  rw [List.mem_iff_getElem] at hpz
  obtain ⟨k, hk, hpk⟩ := hpz
  rw [List.getElem_zip] at hpk
  have hkc : k < chosen.length := by
    have := hk
    rw [List.length_zip, List.length_range'] at this
    omega
  have hkpy : k < py := hlen ▸ hkc
  subst hpk
  simp only [decide_eq_true_eq] at hple
  have hkr : k < (List.range' 1 py).length := by simpa using hkpy
  have hylt : (List.range' 1 py)[k] = 1 + k := by
    rw [List.getElem_range' k hkr]; ring
  rw [hylt] at hple
  have hkf3 : k < first3 := by omega
  have hgd : chosen.getD k default = chosen[k] := List.getD_eq_getElem chosen default hkc
  have hmask := hshape k hkc
  rw [hgd] at hmask
  rw [hmask] at hxp
  rw [List.mem_toFinset, List.mem_map] at hxp
  obtain ⟨j, hj, hjx⟩ := hxp
  unfold windowStates
  rw [List.mem_toFinset, List.mem_map]
  refine ⟨j, ?_, hjx⟩
  rw [List.mem_flatMap]
  have hkt : k < ((chosen.map (fun b => b.ids)).take first3).length := by
    rw [List.length_take, List.length_map]
    exact lt_min hkf3 hkc
  refine ⟨((chosen.map (fun b => b.ids)).take first3)[k], List.getElem_mem hkt, ?_⟩
  have hmk : k < (chosen.map (fun b => b.ids)).length := by
    rw [List.length_map]; exact hkc
  have h1 : ((chosen.map (fun b => b.ids)).take first3)[k]
      = (chosen.map (fun b => b.ids))[k] :=
    List.getElem_take _
  rw [h1, List.getElem_map]
  simpa using hj

theorem build_eq_noCandidates {rows : List CityRow} {cfg : PortfolioConfig}
    (hc : (candidates rows).length = 0) :
    build_city_portfolio rows cfg =
      { result := .noCandidates
      , plan := rows.map (fun _ =>
          { initPlanRow with optimization_status := .NO_FEASIBLE_GO_OR_CONDITIONAL_CITIES }) } := by
  unfold build_city_portfolio
  rw [if_pos hc]

theorem build_eq_abort {rows : List CityRow} {cfg : PortfolioConfig} {y : ℕ}
    (hc : ¬ (candidates rows).length = 0) (hrun : optimizerRun rows cfg = .abort y) :
    build_city_portfolio rows cfg =
      { result := .infeasible (some y)
      , plan := rows.map (fun _ =>
          { initPlanRow with optimization_status := .INFEASIBLE_CONSTRAINT_SET }) } := by
  unfold build_city_portfolio
  rw [if_neg hc]
  simp only [hrun]

theorem build_eq_infeasiblePost {rows : List CityRow} {cfg : PortfolioConfig}
    {chosen : List Bundle} {st : Finset ℕ}
    (hc : ¬ (candidates rows).length = 0) (hrun : optimizerRun rows cfg = .done chosen st)
    (hpost : 1 ≤ firstWindow cfg ∧ st.card < requiredStates rows cfg) :
    build_city_portfolio rows cfg =
      { result := .infeasible none
      , plan := rows.map (fun _ =>
          { initPlanRow with optimization_status := .INFEASIBLE_CONSTRAINT_SET }) } := by
  unfold build_city_portfolio
  rw [if_neg hc]
  simp only [hrun]
  rw [if_pos hpost]

theorem build_eq_success {rows : List CityRow} {cfg : PortfolioConfig}
    {chosen : List Bundle} {st : Finset ℕ}
    (hc : ¬ (candidates rows).length = 0) (hrun : optimizerRun rows cfg = .done chosen st)
    (hpost : ¬ (1 ≤ firstWindow cfg ∧ st.card < requiredStates rows cfg)) :
    build_city_portfolio rows cfg =
      { result := .success (chosen.map (fun b => b.ids)) st
      , plan := (List.range rows.length).map (fun i =>
          match (candidateIdx rows).findIdx? (fun c => c == i) with
          | none => initPlanRow
          | some j => successPlanRow (budgetsTrunc cfg) (capsTrunc cfg) (candidates rows)
              (chosen.map (fun b => b.ids)) j) } := by
  unfold build_city_portfolio
  rw [if_neg hc]
  simp only [hrun]
  rw [if_neg hpost]

theorem build_plan_noCandidates {rows : List CityRow} {cfg : PortfolioConfig}
    (hc : (candidates rows).length = 0) :
    (build_city_portfolio rows cfg).plan = rows.map (fun _ =>
      { initPlanRow with optimization_status := .NO_FEASIBLE_GO_OR_CONDITIONAL_CITIES }) := by
  rw [build_eq_noCandidates hc]

theorem build_plan_abort {rows : List CityRow} {cfg : PortfolioConfig} {y : ℕ}
    (hc : ¬ (candidates rows).length = 0) (hrun : optimizerRun rows cfg = .abort y) :
    (build_city_portfolio rows cfg).plan = rows.map (fun _ =>
      { initPlanRow with optimization_status := .INFEASIBLE_CONSTRAINT_SET }) := by
  rw [build_eq_abort hc hrun]

theorem build_plan_infeasiblePost {rows : List CityRow} {cfg : PortfolioConfig}
    {chosen : List Bundle} {st : Finset ℕ}
    (hc : ¬ (candidates rows).length = 0) (hrun : optimizerRun rows cfg = .done chosen st)
    (hpost : 1 ≤ firstWindow cfg ∧ st.card < requiredStates rows cfg) :
    (build_city_portfolio rows cfg).plan = rows.map (fun _ =>
      { initPlanRow with optimization_status := .INFEASIBLE_CONSTRAINT_SET }) := by
  rw [build_eq_infeasiblePost hc hrun hpost]

theorem build_plan_success {rows : List CityRow} {cfg : PortfolioConfig}
    {chosen : List Bundle} {st : Finset ℕ}
    (hc : ¬ (candidates rows).length = 0) (hrun : optimizerRun rows cfg = .done chosen st)
    (hpost : ¬ (1 ≤ firstWindow cfg ∧ st.card < requiredStates rows cfg)) :
    (build_city_portfolio rows cfg).plan = (List.range rows.length).map (fun i =>
      match (candidateIdx rows).findIdx? (fun c => c == i) with
      | none => initPlanRow
      | some j => successPlanRow (budgetsTrunc cfg) (capsTrunc cfg) (candidates rows)
          (chosen.map (fun b => b.ids)) j) := by
  rw [build_eq_success hc hrun hpost]

theorem build_infeasible_some_elim {rows : List CityRow} {cfg : PortfolioConfig} {y : ℕ}
    (h : (build_city_portfolio rows cfg).result = .infeasible (some y)) :
    ¬ (candidates rows).length = 0 ∧ optimizerRun rows cfg = .abort y := by
  by_cases hc : (candidates rows).length = 0
  · rw [build_eq_noCandidates hc] at h
    exact absurd h (by simp)
  · refine ⟨hc, ?_⟩
    cases hrun : optimizerRun rows cfg with
    | abort y2 =>
      rw [build_eq_abort hc hrun] at h
      simp only [PortfolioResult.mk.injEq] at h
      have : y2 = y := by simpa using h
      rw [this]
    | done chosen st =>
      by_cases hpost : 1 ≤ firstWindow cfg ∧ st.card < requiredStates rows cfg
      · rw [build_eq_infeasiblePost hc hrun hpost] at h
        exact absurd h (by simp)
      · rw [build_eq_success hc hrun hpost] at h
        exact absurd h (by simp)

/-- C1 (amended): the optimizer caps the diversification requirement at
min(configured minimum, number of distinct candidate states) (line 669);
whenever the planning horizon is nonempty and build_city_portfolio
reports success, the cities assigned to years inside the diversification
window represent at least that capped number of distinct states. -/
theorem optimizer_success_meets_capped_state_floor (rows : List CityRow) (cfg : PortfolioConfig)
    (hpy : 1 ≤ planningYears cfg)
    (h : (build_city_portfolio rows cfg).result.isSuccess = true) :
    requiredStates rows cfg
      ≤ (windowStates (candidates rows) (firstWindow cfg)
          (build_city_portfolio rows cfg).result.scheduleOf).card := by
  obtain ⟨chosen, st, hrun, hres, hpost⟩ := build_isSuccess_elim h
  obtain ⟨hlen, hst, hk⟩ := chosen_bundle_spec hrun
  rw [hres]
  simp only [OptResult.scheduleOf]
  have h13 : 1 ≤ firstWindow cfg := by
    unfold firstWindow
    omega
  have hcard : requiredStates rows cfg ≤ st.card := by
    by_contra hlt
    push_neg at hlt
    exact hpost ⟨h13, hlt⟩
  refine le_trans hcard ?_
  refine Finset.card_le_card ?_
  rw [hst]
  apply statesAcc_subset hlen
  intro k hkc
  exact (bundle_fields_of_shape (chosen_bundle_shape (hk k (hlen ▸ hkc)).1).1).2.1

/-- C4: when the optimizer declares the constraint set infeasible, every
city keeps sentinel year -1, launch wave Hold and selected false exactly
as initialized, the whole plan carries the explicit status
INFEASIBLE_CONSTRAINT_SET, and that status is distinct from the
no-candidates status NO_FEASIBLE_GO_OR_CONDITIONAL_CITIES. -/
theorem infeasible_plan_assigns_no_cities (rows : List CityRow) (cfg : PortfolioConfig)
    (a : Option ℕ) (h : (build_city_portfolio rows cfg).result = .infeasible a) :
    (∀ p ∈ (build_city_portfolio rows cfg).plan,
      p.rolloutYear = -1 ∧ p.launch_wave = "Hold" ∧ p.selected_by_optimizer = false ∧
        p.optimization_status = OptStatus.INFEASIBLE_CONSTRAINT_SET) ∧
    OptStatus.INFEASIBLE_CONSTRAINT_SET ≠ OptStatus.NO_FEASIBLE_GO_OR_CONDITIONAL_CITIES := by
  refine ⟨?_, by simp⟩
  intro p hp
  by_cases hc : (candidates rows).length = 0
  · rw [build_eq_noCandidates hc] at h
    exact absurd h (by simp)
  · cases hrun : optimizerRun rows cfg with
    | abort y =>
      rw [build_plan_abort hc hrun] at hp
      simp only [List.mem_map] at hp
      obtain ⟨r, _, hr⟩ := hp
      rw [← hr]
      exact ⟨rfl, rfl, rfl, rfl⟩
    | done chosen st =>
      by_cases hpost : 1 ≤ firstWindow cfg ∧ st.card < requiredStates rows cfg
      · rw [build_plan_infeasiblePost hc hrun hpost] at hp
        simp only [List.mem_map] at hp
        obtain ⟨r, _, hr⟩ := hp
        rw [← hr]
        exact ⟨rfl, rfl, rfl, rfl⟩
      · rw [build_eq_success hc hrun hpost] at h
        exact absurd h (by simp)

/-- C5: for every input table and configuration, a city whose board
signal is NO-GO never receives a rollout year: its plan row keeps
sentinel year -1 and is never marked as selected by the optimizer. -/
theorem nogo_city_never_assigned (rows : List CityRow) (cfg : PortfolioConfig) (i : ℕ)
    (hi : i < rows.length) (hsig : boardSignal (rows.getD i default) = .NOGO) :
    ((build_city_portfolio rows cfg).plan.getD i initPlanRow).rolloutYear = -1 ∧
    ((build_city_portfolio rows cfg).plan.getD i initPlanRow).selected_by_optimizer = false := by
  have hnotc : i ∉ candidateIdx rows := by
    intro hmem
    unfold candidateIdx at hmem
    rw [List.mem_filter] at hmem
    have h2 := hmem.2
    simp only [decide_eq_true_eq] at h2
    exact h2 hsig
  by_cases hc : (candidates rows).length = 0
  · rw [build_plan_noCandidates hc,
      getD_map_of_lt (fun _ => ({ initPlanRow with
        optimization_status := OptStatus.NO_FEASIBLE_GO_OR_CONDITIONAL_CITIES } : PlanRow))
        rows i initPlanRow default hi]
    exact ⟨rfl, rfl⟩
  · cases hrun : optimizerRun rows cfg with
    | abort y =>
      rw [build_plan_abort hc hrun,
        getD_map_of_lt (fun _ => ({ initPlanRow with
          optimization_status := OptStatus.INFEASIBLE_CONSTRAINT_SET } : PlanRow))
          rows i initPlanRow default hi]
      exact ⟨rfl, rfl⟩
    | done chosen st =>
      by_cases hpost : 1 ≤ firstWindow cfg ∧ st.card < requiredStates rows cfg
      · rw [build_plan_infeasiblePost hc hrun hpost,
          getD_map_of_lt (fun _ => ({ initPlanRow with
            optimization_status := OptStatus.INFEASIBLE_CONSTRAINT_SET } : PlanRow))
            rows i initPlanRow default hi]
        exact ⟨rfl, rfl⟩
      · rw [build_plan_success hc hrun hpost]
        have hir : i < (List.range rows.length).length := by simpa using hi
        rw [getD_map_of_lt _ _ _ _ 0 hir]
        have hri : (List.range rows.length).getD i 0 = i := by
          rw [List.getD_eq_getElem _ _ hir, List.getElem_range]
        rw [hri]
        have hnone : (candidateIdx rows).findIdx? (fun c => c == i) = none := by
          rw [List.findIdx?_eq_none_iff]
          intro x hx
          simp only [beq_eq_false_iff_ne]
          intro hxi
          exact hnotc (hxi ▸ hx)
        simp only [hnone]
        exact ⟨rfl, rfl⟩

/-- C10: every yearly bundle list contains the empty bundle with score 0,
capex 0 and risk 0 regardless of budget and risk cap, the empty bundle
never overlaps previously launched cities, and a per-year no-surviving-
bundle abort can only happen in a year inside the diversification
window. -/
theorem empty_bundle_feasible_and_abort_in_window :
    (∀ (cand : List CityRow) (m : ℕ) (bud cap : ℚ),
      mkBundle cand [] ∈ yearlyBundles cand m bud cap ∧
      (mkBundle cand []).score = 0 ∧ (mkBundle cand []).capexSum = 0 ∧
      (mkBundle cand []).riskAvg = 0 ∧
      ∀ launched : Finset ℕ, (mkBundle cand []).mask ∩ launched = ∅) ∧
    ∀ (rows : List CityRow) (cfg : PortfolioConfig) (y : ℕ),
      (build_city_portfolio rows cfg).result = .infeasible (some y) →
      1 ≤ y ∧ y ≤ firstWindow cfg := by
  constructor
  · intro cand m bud cap
    refine ⟨emptyBundle_mem_yearlyBundles cand m bud cap, rfl, rfl, rfl, fun launched => ?_⟩
    show (([] : List ℕ).toFinset) ∩ launched = ∅
    simp
  · intro rows cfg y h
    obtain ⟨hc, hrun⟩ := build_infeasible_some_elim h
    unfold optimizerRun at hrun
    have hempty : ∀ z ∈ List.range' 1 (planningYears cfg),
        mkBundle (candidates rows) [] ∈ bundlesForYear rows cfg z := by
      intro z _
      unfold bundlesForYear
      exact emptyBundle_mem_yearlyBundles _ _ _ _
    obtain ⟨hmem, hle⟩ := runYears_abort_le_first3 _ ∅ ∅ y hempty hrun
    rw [List.mem_range'_1] at hmem
    exact ⟨hmem.1, hle⟩

unseal Rat.add Rat.mul Rat.inv Rat.sub in
/-- C1 counterexample: three GO candidates spanning only 2 distinct
states with a configured minimum of 3; contrary to the claim, the
optimizer succeeds (it does not report the plan infeasible), and the
diversification window covers only 2 < 3 distinct states. -/
theorem optimizer_state_floor_cap_counterexample :
    (((candidates [⟨1, 0, 10, 0⟩, ⟨1, 0, 10, 1⟩, ⟨1, 0, 10, 0⟩]).map
        (fun r => r.state)).toFinset.card = 2)
    ∧ ((⟨[100, 100, 100], 0, [1, 1, 1], [1, 1, 1], 3⟩ :
        PortfolioConfig).min_distinct_states_first3_years = 3)
    ∧ (build_city_portfolio [⟨1, 0, 10, 0⟩, ⟨1, 0, 10, 1⟩, ⟨1, 0, 10, 0⟩]
        ⟨[100, 100, 100], 0, [1, 1, 1], [1, 1, 1], 3⟩).result.isSuccess = true
    ∧ (windowStates (candidates [⟨1, 0, 10, 0⟩, ⟨1, 0, 10, 1⟩, ⟨1, 0, 10, 0⟩])
        (firstWindow ⟨[100, 100, 100], 0, [1, 1, 1], [1, 1, 1], 3⟩)
        (build_city_portfolio [⟨1, 0, 10, 0⟩, ⟨1, 0, 10, 1⟩, ⟨1, 0, 10, 0⟩]
          ⟨[100, 100, 100], 0, [1, 1, 1], [1, 1, 1], 3⟩).result.scheduleOf).card = 2 := by
  decide

unseal Rat.add Rat.mul Rat.inv Rat.sub in
/-- C1 witness: a concrete successful run meeting the capped floor. -/
theorem optimizer_success_meets_capped_state_floor_witness :
    1 ≤ planningYears ⟨[100, 100, 100], 0, [1, 1, 1], [1, 1, 1], 3⟩
    ∧ (build_city_portfolio [⟨1, 0, 10, 0⟩, ⟨1, 0, 10, 1⟩, ⟨1, 0, 10, 0⟩]
        ⟨[100, 100, 100], 0, [1, 1, 1], [1, 1, 1], 3⟩).result.isSuccess = true
    ∧ requiredStates [⟨1, 0, 10, 0⟩, ⟨1, 0, 10, 1⟩, ⟨1, 0, 10, 0⟩]
        ⟨[100, 100, 100], 0, [1, 1, 1], [1, 1, 1], 3⟩
      ≤ (windowStates (candidates [⟨1, 0, 10, 0⟩, ⟨1, 0, 10, 1⟩, ⟨1, 0, 10, 0⟩])
          (firstWindow ⟨[100, 100, 100], 0, [1, 1, 1], [1, 1, 1], 3⟩)
          (build_city_portfolio [⟨1, 0, 10, 0⟩, ⟨1, 0, 10, 1⟩, ⟨1, 0, 10, 0⟩]
            ⟨[100, 100, 100], 0, [1, 1, 1], [1, 1, 1], 3⟩).result.scheduleOf).card :=
  ⟨by decide, by decide,
    optimizer_success_meets_capped_state_floor _ _ (by decide) (by decide)⟩

unseal Rat.add Rat.mul Rat.inv Rat.sub in
/-- C3 witness: the invariant at a concrete successful run. -/
theorem optimizer_schedule_invariant_witness :
    (build_city_portfolio [⟨1, 0, 10, 0⟩, ⟨1, 0, 10, 1⟩]
        ⟨[10, 10], 0, [1, 1], [1, 1], 2⟩).result.isSuccess = true
    ∧ planFeasibilityInvariant [⟨1, 0, 10, 0⟩, ⟨1, 0, 10, 1⟩]
        ⟨[10, 10], 0, [1, 1], [1, 1], 2⟩ :=
  ⟨by decide, optimizer_schedule_invariant _ _ (by decide)⟩

unseal Rat.add Rat.mul Rat.inv Rat.sub in
/-- C4 witness: a concrete infeasible run with untouched plan rows. -/
theorem infeasible_plan_assigns_no_cities_witness :
    (build_city_portfolio [⟨1, 0, 10, 0⟩, ⟨1, 0, 10, 1⟩]
        ⟨[10], 0, [1], [1], 2⟩).result = .infeasible (some 1)
    ∧ ((∀ p ∈ (build_city_portfolio [⟨1, 0, 10, 0⟩, ⟨1, 0, 10, 1⟩]
          ⟨[10], 0, [1], [1], 2⟩).plan,
        p.rolloutYear = -1 ∧ p.launch_wave = "Hold" ∧ p.selected_by_optimizer = false ∧
          p.optimization_status = OptStatus.INFEASIBLE_CONSTRAINT_SET) ∧
      OptStatus.INFEASIBLE_CONSTRAINT_SET ≠ OptStatus.NO_FEASIBLE_GO_OR_CONDITIONAL_CITIES) :=
  ⟨by decide, infeasible_plan_assigns_no_cities _ _ (some 1) (by decide)⟩

unseal Rat.add Rat.mul Rat.inv Rat.sub in
/-- C5 witness: a concrete NO-GO city left unassigned. -/
theorem nogo_city_never_assigned_witness :
    boardSignal (([⟨1, 9/10, -3000000, 0⟩, ⟨1, 0, 10, 1⟩] : List CityRow).getD 0 default) = .NOGO
    ∧ 0 < ([⟨1, 9/10, -3000000, 0⟩, ⟨1, 0, 10, 1⟩] : List CityRow).length
    ∧ ((build_city_portfolio [⟨1, 9/10, -3000000, 0⟩, ⟨1, 0, 10, 1⟩]
          ⟨[10], 0, [1], [1], 1⟩).plan.getD 0 initPlanRow).rolloutYear = -1
    ∧ ((build_city_portfolio [⟨1, 9/10, -3000000, 0⟩, ⟨1, 0, 10, 1⟩]
          ⟨[10], 0, [1], [1], 1⟩).plan.getD 0 initPlanRow).selected_by_optimizer = false := by
  refine ⟨by decide, by decide, ?_⟩
  exact nogo_city_never_assigned _ _ 0 (by decide) (by decide)

unseal Rat.add Rat.mul Rat.inv Rat.sub in
/-- C10 witness: a concrete abort happening at year 1, inside the window. -/
theorem empty_bundle_feasible_and_abort_in_window_witness :
    (build_city_portfolio [⟨2, 0, 5, 0⟩, ⟨2, 0, 5, 1⟩]
        ⟨[50], 0, [1], [1], 2⟩).result = .infeasible (some 1)
    ∧ 1 ≤ 1 ∧ 1 ≤ firstWindow ⟨[50], 0, [1], [1], 2⟩ :=
  ⟨by decide, empty_bundle_feasible_and_abort_in_window.2
    [⟨2, 0, 5, 0⟩, ⟨2, 0, 5, 1⟩] ⟨[50], 0, [1], [1], 2⟩ 1 (by decide)⟩

theorem sum_map_div (l : List SummaryRow) (f : SummaryRow → ℚ) (d : ℚ) :
    (l.map (fun r => f r / d)).sum = (l.map f).sum / d := by
  induction l with
  | nil => simp
  | cons c t ih => simp [ih, add_div]

/-- C2 (amended): per strategy, build_decision_matrix maps each scenario
to its configured probability with default weight 0 (not 1) for an
unmapped scenario name, normalizes by the weight sum falling back to
denominator 1 when the sum is zero, and computes the probability-weighted
mean of each summary statistic with those normalized weights. -/
theorem decision_matrix_weighting (probs : List (String × ℚ)) (group : List SummaryRow)
    (stat : SummaryRow → ℚ) :
    (∀ s : String, (∀ p ∈ probs, p.1 ≠ s) → scenarioProb probs s = 0) ∧
    weightedStat probs group stat
      = (group.map (fun r => stat r * scenarioProb probs r.scenario)).sum
        / (if totalProb probs group = 0 then 1 else totalProb probs group) := by
  constructor
  · intro s hs
    unfold scenarioProb
    have hnone : probs.find? (fun p => p.1 == s) = none := by
      rw [List.find?_eq_none]
      intro p hp
      simpa using hs p hp
    rw [hnone]
  · unfold weightedStat weightDenom
    have hcong : group.map (fun r => stat r * (scenarioProb probs r.scenario
        / (if totalProb probs group = 0 then 1 else totalProb probs group)))
        = group.map (fun r => (stat r * scenarioProb probs r.scenario)
        / (if totalProb probs group = 0 then 1 else totalProb probs group)) := by
      apply List.map_congr_left
      intro r _
      rw [mul_div_assoc]
    rw [hcong, sum_map_div]

theorem sorted_getD_le {s : List ℚ} (hs : List.Sorted (· ≤ ·) s) {a b : ℕ}
    (hab : a ≤ b) (hb : b < s.length) : s.getD a 0 ≤ s.getD b 0 := by
  have ha : a < s.length := lt_of_le_of_lt hab hb
  rw [List.getD_eq_getElem _ _ ha, List.getD_eq_getElem _ _ hb]
  rcases eq_or_lt_of_le hab with rfl | hlt
  · exact le_refl _
  · have := hs.rel_get_of_le
      (show (⟨a, ha⟩ : Fin s.length) ≤ ⟨b, hb⟩ from le_of_lt hlt)
    simpa [List.get_eq_getElem] using this

theorem qsort_sorted (l : List ℚ) : List.Sorted (· ≤ ·) (qsort l) :=
  List.sorted_insertionSort _ l

theorem qsort_length (l : List ℚ) : (qsort l).length = l.length :=
  (List.perm_insertionSort _ l).length_eq

theorem interp_mono {s : List ℚ} (hs : List.Sorted (· ≤ ·) s) (hn : 1 ≤ s.length)
    {p p' : ℚ} (hp0 : 0 ≤ p) (hpp : p ≤ p') (hp1 : p' ≤ (s.length : ℚ) - 1) :
    s.getD (Int.toNat ⌊p⌋) 0 + (p - (Int.toNat ⌊p⌋ : ℚ)) *
        (s.getD (min (Int.toNat ⌊p⌋ + 1) (s.length - 1)) 0 - s.getD (Int.toNat ⌊p⌋) 0)
      ≤ s.getD (Int.toNat ⌊p'⌋) 0 + (p' - (Int.toNat ⌊p'⌋ : ℚ)) *
        (s.getD (min (Int.toNat ⌊p'⌋ + 1) (s.length - 1)) 0 - s.getD (Int.toNat ⌊p'⌋) 0) := by
  have hpb0 : 0 ≤ p' := le_trans hp0 hpp
  have hf0 : 0 ≤ ⌊p⌋ := Int.floor_nonneg.mpr hp0
  have hfb0 : 0 ≤ ⌊p'⌋ := Int.floor_nonneg.mpr hpb0
  set n := s.length with hn_def
  set i := Int.toNat ⌊p⌋ with hi_def
  set ib := Int.toNat ⌊p'⌋ with hib_def
  have hcast : (i : ℚ) = (⌊p⌋ : ℚ) := by
    rw [hi_def]
    exact_mod_cast congrArg Int.cast (Int.toNat_of_nonneg hf0)
  have hcast' : (ib : ℚ) = (⌊p'⌋ : ℚ) := by
    rw [hib_def]
    exact_mod_cast congrArg Int.cast (Int.toNat_of_nonneg hfb0)
  have hip : (i : ℚ) ≤ p := by rw [hcast]; exact Int.floor_le p
  have hibp : (ib : ℚ) ≤ p' := by rw [hcast']; exact Int.floor_le p'
  have hpi1 : p < (i : ℚ) + 1 := by rw [hcast]; exact Int.lt_floor_add_one p
  have hpbi1 : p' < (ib : ℚ) + 1 := by rw [hcast']; exact Int.lt_floor_add_one p'
  have hiib : i ≤ ib := by
    rw [hi_def, hib_def]
    exact Int.toNat_le_toNat (Int.floor_le_floor hpp)
  have hn1 : ((n - 1 : ℕ) : ℚ) = (n : ℚ) - 1 := by
    have : (1 : ℕ) ≤ n := hn
    push_cast [this]
    ring
  have hibn : ib ≤ n - 1 := by
    have hfl : ⌊p'⌋ ≤ (n - 1 : ℕ) := by
      have : ⌊p'⌋ ≤ ⌊((n - 1 : ℕ) : ℚ)⌋ := Int.floor_le_floor (by rw [hn1]; exact hp1)
      simpa using this
    rw [hib_def]
    exact_mod_cast Int.toNat_le.mpr hfl
  have hin : i ≤ n - 1 := le_trans hiib hibn
  have hi_lt : i < n := by omega
  have hib_lt : ib < n := by omega
  have hmin_lt : min (i + 1) (n - 1) < n := by omega
  have hminb_lt : min (ib + 1) (n - 1) < n := by omega
  have hlohi : s.getD i 0 ≤ s.getD (min (i + 1) (n - 1)) 0 :=
    sorted_getD_le hs (by omega) hmin_lt
  have hlohib : s.getD ib 0 ≤ s.getD (min (ib + 1) (n - 1)) 0 :=
    sorted_getD_le hs (by omega) hminb_lt
  have hfrac0 : 0 ≤ p - (i : ℚ) := sub_nonneg.mpr hip
  have hfrac0' : 0 ≤ p' - (ib : ℚ) := sub_nonneg.mpr hibp
  have hfrac1 : p - (i : ℚ) ≤ 1 := by linarith
  rcases eq_or_lt_of_le hiib with heq | hlt
  · rw [← heq]
    have hdiff : 0 ≤ s.getD (min (i + 1) (n - 1)) 0 - s.getD i 0 := sub_nonneg.mpr hlohi
    have := mul_le_mul_of_nonneg_right (sub_le_sub_right hpp (i : ℚ)) hdiff
    linarith
  · have h1 : s.getD i 0 + (p - (i : ℚ)) *
        (s.getD (min (i + 1) (n - 1)) 0 - s.getD i 0) ≤ s.getD (min (i + 1) (n - 1)) 0 := by
      have hdiff : 0 ≤ s.getD (min (i + 1) (n - 1)) 0 - s.getD i 0 := sub_nonneg.mpr hlohi
      have := mul_le_of_le_one_left hdiff hfrac1
      linarith
    have h2 : s.getD (min (i + 1) (n - 1)) 0 ≤ s.getD ib 0 :=
      sorted_getD_le hs (by omega) hib_lt
    have h3 : s.getD ib 0 ≤ s.getD ib 0 + (p' - (ib : ℚ)) *
        (s.getD (min (ib + 1) (n - 1)) 0 - s.getD ib 0) := by
      have hdiff : 0 ≤ s.getD (min (ib + 1) (n - 1)) 0 - s.getD ib 0 := sub_nonneg.mpr hlohib
      have := mul_nonneg hfrac0' hdiff
      linarith
    linarith

theorem quantile_mono {l : List ℚ} (hne : l ≠ []) {q q' : ℚ}
    (h0 : 0 ≤ q) (hqq : q ≤ q') (h1 : q' ≤ 1) : quantile l q ≤ quantile l q' := by
  have hn : 1 ≤ (qsort l).length := by
    rw [qsort_length]
    exact List.length_pos.mpr hne
  have hnq : (0 : ℚ) ≤ ((qsort l).length : ℚ) - 1 := by
    have : (1 : ℚ) ≤ ((qsort l).length : ℚ) := by exact_mod_cast hn
    linarith
  unfold quantile
  exact interp_mono (qsort_sorted l) hn (mul_nonneg h0 hnq)
    (mul_le_mul_of_nonneg_right hqq hnq)
    (by
      have := mul_le_of_le_one_left hnq h1
      linarith)

theorem cvar5_le_p10 {l : List ℚ} (hne : l ≠ []) : cvar5 l ≤ quantile l (1/10) := by
  have hq : quantile l (1/20) ≤ quantile l (1/10) :=
    quantile_mono hne (by norm_num) (by norm_num) (by norm_num)
  unfold cvar5
  by_cases ht : (l.filter (fun x => x ≤ quantile l (1/20))).length = 0
  · rw [if_pos ht]
    exact hq
  · rw [if_neg ht]
    refine le_trans ?_ hq
    have hmem : ∀ x ∈ l.filter (fun x => x ≤ quantile l (1/20)), x ≤ quantile l (1/20) := by
      intro x hx
      have := (List.mem_filter.mp hx).2
      simpa using this
    have hsum := List.sum_le_card_nsmul (l.filter (fun x => x ≤ quantile l (1/20)))
      (quantile l (1/20)) hmem
    rw [nsmul_eq_mul] at hsum
    have hlen : (0 : ℚ) < ((l.filter (fun x => x ≤ quantile l (1/20))).length : ℚ) := by
      have : 0 < (l.filter (fun x => x ≤ quantile l (1/20))).length := Nat.pos_of_ne_zero ht
      exact_mod_cast this
    rw [div_le_iff₀ hlen]
    linarith [hsum]

theorem counted_fraction_bounds (l : List ℚ) (p : ℚ → Bool) (hne : l ≠ []) :
    0 ≤ ((l.filter p).length : ℚ) / (l.length : ℚ) ∧
      ((l.filter p).length : ℚ) / (l.length : ℚ) ≤ 1 := by
  have hlen : (0 : ℚ) < (l.length : ℚ) := by
    exact_mod_cast List.length_pos.mpr hne
  constructor
  · positivity
  · rw [div_le_one hlen]
    exact_mod_cast List.length_filter_le p l

/-- C7: for every nonempty (scenario, strategy) group, the summary
satisfies p10 of contribution at most p50 at most p90, CVaR5 at most
p10, and a loss probability between 0 and 1, where CVaR5 falls back to
the 5th percentile itself when the tail selection is empty. -/
theorem summary_statistics_sane (contrib : List ℚ) (hurdle : ℚ) (hne : contrib ≠ []) :
    (summarizeGroup contrib hurdle).p10_contribution
        ≤ (summarizeGroup contrib hurdle).p50_contribution ∧
    (summarizeGroup contrib hurdle).p50_contribution
        ≤ (summarizeGroup contrib hurdle).p90_contribution ∧
    (summarizeGroup contrib hurdle).cvar5_contribution
        ≤ (summarizeGroup contrib hurdle).p10_contribution ∧
    0 ≤ (summarizeGroup contrib hurdle).prob_loss ∧
    (summarizeGroup contrib hurdle).prob_loss ≤ 1 := by
  unfold summarizeGroup
  refine ⟨quantile_mono hne (by norm_num) (by norm_num) (by norm_num),
    quantile_mono hne (by norm_num) (by norm_num) (by norm_num),
    cvar5_le_p10 hne, ?_, ?_⟩
  · exact (counted_fraction_bounds contrib _ hne).1
  · exact (counted_fraction_bounds contrib _ hne).2

/-- C7 witness: the statistics invariant on a concrete group. -/
theorem summary_statistics_sane_witness :
    ([(1 : ℚ), -2, 3] ≠ []) ∧
    ((summarizeGroup [(1 : ℚ), -2, 3] 0).p10_contribution
        ≤ (summarizeGroup [(1 : ℚ), -2, 3] 0).p50_contribution ∧
      (summarizeGroup [(1 : ℚ), -2, 3] 0).p50_contribution
        ≤ (summarizeGroup [(1 : ℚ), -2, 3] 0).p90_contribution ∧
      (summarizeGroup [(1 : ℚ), -2, 3] 0).cvar5_contribution
        ≤ (summarizeGroup [(1 : ℚ), -2, 3] 0).p10_contribution ∧
      0 ≤ (summarizeGroup [(1 : ℚ), -2, 3] 0).prob_loss ∧
      (summarizeGroup [(1 : ℚ), -2, 3] 0).prob_loss ≤ 1) :=
  ⟨by decide, summary_statistics_sane [(1 : ℚ), -2, 3] 0 (by decide)⟩

unseal Rat.add Rat.mul Rat.inv Rat.sub in
/-- C2 counterexample: with probability map containing only scenario a
at weight 1 and summary rows a:100 and b:200, the code (default 0)
yields weighted mean 100 while the claimed default-1 rule yields 150. -/
theorem decision_matrix_default_weight_counterexample :
    weightedStat [("a", 1)] [⟨"a", 100, 0, 0, 0, 0⟩, ⟨"b", 200, 0, 0, 0, 0⟩]
        (fun r => r.mean_contribution) = 100
    ∧ weightedStatSpecDefaultOne [("a", 1)]
        [⟨"a", 100, 0, 0, 0, 0⟩, ⟨"b", 200, 0, 0, 0, 0⟩]
        (fun r => r.mean_contribution) = 150
    ∧ (100 : ℚ) ≠ 150 := by
  decide

/-- C2 witness: the weighting equation evaluated at a concrete table. -/
theorem decision_matrix_weighting_witness :
    scenarioProb [("a", (1 : ℚ))] "b" = 0
    ∧ weightedStat [("a", (1 : ℚ))] [⟨"a", 100, 0, 0, 0, 0⟩, ⟨"b", 200, 0, 0, 0, 0⟩]
        (fun r => r.mean_contribution)
      = (([⟨"a", 100, 0, 0, 0, 0⟩, ⟨"b", 200, 0, 0, 0, 0⟩] : List SummaryRow).map
          (fun r => r.mean_contribution * scenarioProb [("a", (1 : ℚ))] r.scenario)).sum
        / (if totalProb [("a", (1 : ℚ))]
              [⟨"a", 100, 0, 0, 0, 0⟩, ⟨"b", 200, 0, 0, 0, 0⟩] = 0
           then 1
           else totalProb [("a", (1 : ℚ))]
              [⟨"a", 100, 0, 0, 0, 0⟩, ⟨"b", 200, 0, 0, 0, 0⟩]) :=
  ⟨(decision_matrix_weighting [("a", (1 : ℚ))]
      [⟨"a", 100, 0, 0, 0, 0⟩, ⟨"b", 200, 0, 0, 0, 0⟩] (fun r => r.mean_contribution)).1
      "b" (by decide),
   (decision_matrix_weighting [("a", (1 : ℚ))]
      [⟨"a", 100, 0, 0, 0, 0⟩, ⟨"b", 200, 0, 0, 0, 0⟩] (fun r => r.mean_contribution)).2⟩

/-- C8: calculate_membership_break_even returns yearly break-even spend
fee * (1 + inflation) / discount with the discount floored at 0.001, and
monthly break-even equal to the yearly value divided by 12; for
effective fee 35 (fee 35, zero subsidy), discount 0.10 and inflation
0.02 the monthly break-even equals 119/4 = 29.75. -/
theorem break_even_formula_and_example :
    (∀ fee disc infl : ℚ,
      break_even_yearly_spend fee disc infl = fee * (1 + infl) / max disc (1/1000) ∧
      break_even_monthly_spend fee disc infl = break_even_yearly_spend fee disc infl / 12 ∧
      (1/1000 ≤ disc → break_even_yearly_spend fee disc infl = fee * (1 + infl) / disc)) ∧
    effectiveFee (35 : ℚ) 0 = 35 ∧
    break_even_monthly_spend (35 : ℚ) (1/10) (1/50) = 119/4 := by
  refine ⟨fun fee disc infl => ⟨rfl, rfl, fun h => ?_⟩, ?_, ?_⟩
  · unfold break_even_yearly_spend
    rw [max_eq_left h]
  · unfold effectiveFee
    norm_num
  · unfold break_even_monthly_spend break_even_yearly_spend
    rw [max_eq_left (by norm_num : (1 : ℚ)/1000 ≤ 1/10)]
    norm_num

/-- C8 witness: the unfloored formula at discount 0.10. -/
theorem break_even_formula_and_example_witness :
    ((1 : ℚ)/1000 ≤ 1/10) ∧
    break_even_yearly_spend (35 : ℚ) (1/10) (1/50) = 35 * (1 + 1/50) / (1/10) :=
  ⟨by norm_num,
   (break_even_formula_and_example.1 35 (1/10) (1/50)).2.2 (by norm_num)⟩

theorem enumFrom_map_rows (f : ℕ × StrategyCfg → RepRow) :
    ∀ (l : List StrategyCfg) (c d : ℕ),
      (List.enumFrom (c + d) l).map f
        = (List.enumFrom d l).map (fun q => f (c + q.1, q.2)) := by
  intro l
  induction l with
  | nil => intro c d; rfl
  | cons a t ih =>
    intro c d
    show f (c + d, a) :: (List.enumFrom (c + d + 1) t).map f
      = f (c + d, a) :: (List.enumFrom (d + 1) t).map (fun q => f (c + q.1, q.2))
    rw [show c + d + 1 = c + (d + 1) by omega, ih c (d + 1)]

theorem strategyLoop_eq (S : Sampler) (cfg : SimConfig) (sc : ScenarioCfg) (rep : ℕ)
    (spends discounts noise : List ℝ) :
    ∀ (sts : List StrategyCfg) (seed c : ℕ),
      strategyLoop S cfg sc rep spends discounts noise sts ⟨seed, c⟩
        = (List.enumFrom c sts).map (fun q =>
            { replicationId := rep
            , row := evaluate_strategy cfg q.2 sc spends discounts noise
                (S.normalScalar seed q.1 0 (cfg.response_volatility_percent / 100)) }) := by
  intro sts
  induction sts with
  | nil => intro seed c; rfl
  | cons st rest ih =>
    intro seed c
    show ({ replicationId := rep
          , row := evaluate_strategy cfg st sc spends discounts noise
              (S.normalScalar seed c 0 (cfg.response_volatility_percent / 100)) } : RepRow)
        :: strategyLoop S cfg sc rep spends discounts noise rest ⟨seed, c + 1⟩
      = _
    rw [ih seed (c + 1)]
    rfl

/-- C6: the replication engine is a pure function of the configuration
snapshot and the abstract sampler, so two runs on the same snapshot
produce identical tables; moreover the table equals the closed form in
which the household draws of scenario index i and replication r come
from a fresh generator seeded with base_seed + i*10000 + r at call
indices 0, 1, 2, shared across all strategies of that pair, and the
k-th strategy draws its competitor shock at call index 3 + k of that
same generator. -/
theorem replication_engine_deterministic_seeding (S : Sampler) (cfg : SimConfig) :
    run_replication_engine S cfg = replication_table_spec S cfg := by
  unfold run_replication_engine replication_table_spec
  refine congrArg _ (funext fun p => ?_)
  refine congrArg _ (funext fun rep => ?_)
  show strategyLoop S cfg p.2 rep _ _ _ cfg.strategies
      ⟨cfg.random_seed + p.1 * 10000 + rep, 0 + 3⟩ = _
  rw [strategyLoop_eq]
  rw [show (3 : ℕ) = 3 + 0 by rfl, enumFrom_map_rows _ cfg.strategies 3 0,
    ← List.enum_eq_enumFrom]
  rfl

theorem logistic_gt_half_iff (x : ℝ) : 1/2 < logistic x ↔ 0 < x := by
  unfold logistic
  have he : 0 < Real.exp (-x) := Real.exp_pos (-x)
  have hd : 0 < 1 + Real.exp (-x) := by linarith
  rw [lt_div_iff₀ hd]
  constructor
  · intro h
    have hlt : Real.exp (-x) < 1 := by linarith
    have := Real.exp_lt_one_iff.mp hlt
    linarith
  · intro h
    have hlt : Real.exp (-x) < 1 := Real.exp_lt_one_iff.mpr (by linarith)
    linarith

theorem clip30_pos_iff (x : ℝ) : 0 < clip (-30) 30 x ↔ 0 < x := by
  unfold clip
  rw [lt_max_iff, lt_min_iff]
  constructor
  · rintro (h | ⟨h1, h2⟩)
    · linarith
    · exact h1
  · intro h
    exact Or.inr ⟨h, by norm_num⟩

open Classical in
/-- C9: in evaluate_strategy the per-household adoption decision is the
deterministic comparison logistic(latent) > 0.5, which is equivalent to
latent > 0 because clipping the latent score to [-30, 30] never changes
its sign side; fixing the draw arrays and the scalar competitor shock,
the set of adopting households is therefore the deterministic threshold
set of the latent score, with no independent per-household coin flip. -/
theorem adoption_is_deterministic_threshold :
    (∀ x : ℝ, (0 < clip (-30) 30 x ↔ 0 < x)) ∧
    (∀ x : ℝ, (1/2 < logistic x ↔ 0 < x)) ∧
    (∀ (cfg : SimConfig) (st : StrategyCfg) (sc : ScenarioCfg) (shock : ℝ) (h : Household),
      (adopts cfg st sc shock h ↔ 0 < latentScore cfg st sc shock h)) ∧
    ∀ (cfg : SimConfig) (st : StrategyCfg) (sc : ScenarioCfg) (shock : ℝ)
      (households : List Household),
      households.filter (fun h => decide (adopts cfg st sc shock h))
        = households.filter (fun h => decide (0 < latentScore cfg st sc shock h)) := by
  have hadopt : ∀ (cfg : SimConfig) (st : StrategyCfg) (sc : ScenarioCfg) (shock : ℝ)
      (h : Household), (adopts cfg st sc shock h ↔ 0 < latentScore cfg st sc shock h) := by
    intro cfg st sc shock h
    unfold adopts adoptionProbability
    rw [logistic_gt_half_iff, clip30_pos_iff]
  refine ⟨clip30_pos_iff, logistic_gt_half_iff, hadopt, ?_⟩
  intro cfg st sc shock households
  apply List.filter_congr
  intro h _
  exact decide_eq_decide.mpr (hadopt cfg st sc shock h)

end GermanCostCo
